import Mathlib

/-!
# Verification of the affvisionpy sample applications

Shallow embedding, in Lean 4, of the frame-processing logic of the
`python-sdk-samples` repository (files `affvisionpy_sample.py`,
`affvisionpy-sample.py`, `object_listener.py`), together with proofs of the
behavioural claims made about it.

Modelling conventions used throughout:
* Python numbers (timestamps, metric values) are modelled as exact rationals
  `ℚ`; integer quantities (face/object ids, pixel coordinates, counters) as
  `ℤ` or `Nat`.
* Python dictionaries are modelled as insertion-ordered association lists;
  `d[k] = v` is the in-place update `dset` (replace the value of an existing
  key, keeping its position, or append a fresh key at the end), exactly the
  observable behaviour of a Python `dict`.
* Python's `round(x, 4)` / `round(x)` builtins are modelled by rounding a
  rational to 4 decimal places / to an integer (`round4` / `pyRound`); the
  claims under study never depend on the tie-breaking mode.
* Mutation of Python lists/dicts is modelled by explicit state passing; where
  a claim is *about* aliasing (several list entries being the same object), a
  small heap `Nat → Row` with an allocation counter makes object identity
  explicit.
-/

namespace AffSample

/-- A single cell value that the sample programs store in a CSV row:
either a string (e.g. `'nan'`, a gaze region name), a rational number
(a rounded metric value, a timestamp), or an integer (ids, coordinates). -/
inductive CellVal where
  | s (v : String)
  | q (v : ℚ)
  | i (v : ℤ)
  deriving DecidableEq, Repr

/-- A CSV row: a Python `dict` keyed by header-field names, modelled as an
insertion-ordered association list. -/
abbrev Row := List (String × CellVal)

/-- `dset r k v` is the Python in-place dict assignment `r[k] = v`: if `k` is
already a key its value is replaced in place, otherwise `(k, v)` is appended
at the end (insertion order). -/
def dset (r : Row) (k : String) (v : CellVal) : Row :=
  match r with
  | [] => [(k, v)]
  | (k', v') :: rest =>
    if k' = k then (k', v) :: rest else (k', v') :: dset rest k v

/-- `dlookup r k` is the Python dict read `r[k]` (as an `Option`). -/
def dlookup (r : Row) (k : String) : Option CellVal :=
  match r with
  | [] => none
  | (k', v') :: rest => if k' = k then some v' else dlookup rest k

/-- Keys of a row, in insertion order. -/
def rkeys (r : Row) : List String := r.map Prod.fst

/-- Sequential dict assignments `r[k1] = v1; r[k2] = v2; ...`. -/
def dsetList (r : Row) (kvs : List (String × CellVal)) : Row :=
  kvs.foldl (fun acc kv => dset acc kv.1 kv.2) r

/-- Python's `round(x)` (to an integer); tie-breaking mode immaterial to the
claims, modelled as round-to-nearest. -/
def pyRound (x : ℚ) : ℤ := round x

/-- Python's `round(x, 4)`: round to 4 decimal places. -/
def round4 (x : ℚ) : ℚ := (round (x * 10000) : ℚ) / 10000

/-- Python's `int(x)` truncation toward zero. -/
def pyInt (x : ℚ) : ℤ := if 0 ≤ x then ⌊x⌋ else ⌈x⌉

end AffSample

namespace AffSample

/-! ## C1 — the frame-skipping loop of `affvisionpy_sample.py`

All three processing loops (`process_face_input` lines 132–199,
`process_object_input` lines 216–270, `process_occupant_input` lines 286–343)
share, line for line, the same guard logic around a captured frame:

```
count = 0
last_timestamp = 0
...
if curr_timestamp > last_timestamp or count == 0:
    last_timestamp = curr_timestamp
    afframe = af.Frame(...); count += 1
    detector.process(afframe); ...
else:
    print("skipped a frame ...")
```

The embedding below is that shared logic; `stepFrame` is one loop iteration's
effect on `(count, last_timestamp)` and `processedTimestamps` collects the
timestamps of exactly the frames handed to `detector.process`. -/

/-- The per-loop mutable state of each processing loop: `count` frames
processed so far and the timestamp of the most recently processed frame
(both initialised to 0). -/
structure FrameLoopState where
  count : Nat
  last_timestamp : ℚ
  deriving DecidableEq, Repr

/-- Initial loop state: `count = 0`, `last_timestamp = 0`. -/
def initLoopState : FrameLoopState := { count := 0, last_timestamp := 0 }

/-- The guard `curr_timestamp > last_timestamp or count == 0` deciding whether
a captured frame is wrapped in an `af.Frame` and passed to
`detector.process`. -/
def shouldProcess (s : FrameLoopState) (curr_timestamp : ℚ) : Bool :=
  decide (curr_timestamp > s.last_timestamp) || decide (s.count = 0)

/-- One loop iteration on a captured frame with timestamp `curr_timestamp`:
on the process branch `last_timestamp = curr_timestamp; count += 1`, on the
skip branch only a message is printed and the state is left untouched. -/
def stepFrame (s : FrameLoopState) (curr_timestamp : ℚ) : FrameLoopState :=
  if shouldProcess s curr_timestamp then
    { count := s.count + 1, last_timestamp := curr_timestamp }
  else
    s

/-- The timestamps of the frames actually handed to `detector.process`, for a
run of the loop over the captured timestamps `ts` from state `s`. -/
def processedTimestamps (s : FrameLoopState) : List ℚ → List ℚ
  | [] => []
  | t :: ts =>
    if shouldProcess s t then t :: processedTimestamps (stepFrame s t) ts
    else processedTimestamps (stepFrame s t) ts

lemma stepFrame_of_not_shouldProcess {s : FrameLoopState} {t : ℚ}
    (h : shouldProcess s t = false) : stepFrame s t = s := by
  simp [stepFrame, h]

lemma shouldProcess_iff (s : FrameLoopState) (t : ℚ) :
    shouldProcess s t = true ↔ (s.count = 0 ∨ s.last_timestamp < t) := by
  simp [shouldProcess]
  tauto

lemma processed_gt (ts : List ℚ) :
    ∀ s : FrameLoopState, s.count ≠ 0 →
      ∀ u ∈ processedTimestamps s ts, s.last_timestamp < u := by
  induction ts with
  | nil => intro s _ u hu; simp [processedTimestamps] at hu
  | cons t ts ih =>
    intro s hs u hu
    by_cases hp : shouldProcess s t = true
    · have hlt : s.last_timestamp < t := by
        rcases (shouldProcess_iff s t).mp hp with h0 | h
        · exact absurd h0 hs
        · exact h
      simp only [processedTimestamps, hp, if_true] at hu
      rcases List.mem_cons.mp hu with rfl | hu
      · exact hlt
      · have := ih (stepFrame s t) (by simp [stepFrame, hp]) u hu
        have hlast : (stepFrame s t).last_timestamp = t := by simp [stepFrame, hp]
        calc s.last_timestamp < t := hlt
          _ < u := by rw [← hlast]; exact this
    · have hp' : shouldProcess s t = false := by simpa using hp
      simp only [processedTimestamps, hp', if_false, Bool.false_eq_true,
        stepFrame_of_not_shouldProcess hp'] at hu
      exact ih s hs u hu

lemma processed_chain (ts : List ℚ) :
    ∀ s : FrameLoopState,
      (processedTimestamps s ts).Chain' (· < ·) := by
  induction ts with
  | nil => intro s; simp [processedTimestamps]
  | cons t ts ih =>
    intro s
    by_cases hp : shouldProcess s t = true
    · simp only [processedTimestamps, hp, if_true]
      refine List.chain'_cons'.mpr ⟨?_, ih (stepFrame s t)⟩
      intro u hu
      have hmem : u ∈ processedTimestamps (stepFrame s t) ts :=
        List.mem_of_mem_head? hu
      have hcount : (stepFrame s t).count ≠ 0 := by simp [stepFrame, hp]
      have := processed_gt ts (stepFrame s t) hcount u hmem
      have hlast : (stepFrame s t).last_timestamp = t := by simp [stepFrame, hp]
      rw [hlast] at this
      exact this
    · have hp' : shouldProcess s t = false := by simpa using hp
      simp only [processedTimestamps, hp', if_false, Bool.false_eq_true,
        stepFrame_of_not_shouldProcess hp']
      exact ih s

/-- C1: in every processing mode, a successfully captured frame is passed to
`detector.process` iff it is the first captured frame (`count == 0`) or its
timestamp strictly exceeds that of the most recently processed frame; a
skipped frame changes neither `last_timestamp` nor `count`; and the
timestamps handed to the detector form a strictly increasing sequence. -/
theorem frame_skipping_timestamps_strictly_increase :
    (∀ (s : FrameLoopState) (t : ℚ),
      shouldProcess s t = true ↔ (s.count = 0 ∨ s.last_timestamp < t)) ∧
    (∀ (s : FrameLoopState) (t : ℚ),
      shouldProcess s t = false → stepFrame s t = s) ∧
    (∀ ts : List ℚ, (processedTimestamps initLoopState ts).Chain' (· < ·)) :=
  ⟨shouldProcess_iff,
   fun _ _ h => stepFrame_of_not_shouldProcess h,
   fun ts => processed_chain ts initLoopState⟩

/-- Concrete run of C1: on captured timestamps `[3, 1, 1, 5, 4, 7]` the loop
processes exactly `[3, 5, 7]`, which is strictly increasing. -/
theorem frame_skipping_timestamps_strictly_increase_witness :
    processedTimestamps initLoopState [3, 1, 1, 5, 4, 7] = [3, 5, 7] ∧
    (processedTimestamps initLoopState [3, 1, 1, 5, 4, 7]).Chain' (· < ·) :=
  ⟨by decide, frame_skipping_timestamps_strictly_increase.2.2 [3, 1, 1, 5, 4, 7]⟩

end AffSample

namespace AffHyphenSample

/-! ## C10 — `check_bounding_box_outside` of `affvisionpy-sample.py`

`affvisionpy-sample.py` keeps a module-level `bounding_box_dict` mapping a
face id to the list `[x1, y1, x2, y2]` of its bounding-box coordinates
(`Listener.results_updated`, lines 62–65), read back through
`get_bounding_box_points` (lines 170–174, `int()` conversions) and tested by

```
def check_bounding_box_outside(width, height):
    for fid in bounding_box_dict.keys():
        x1, y1, x2, y2 = get_bounding_box_points(fid)
        if x1 < 0 or x2 > width or y1 < 0 or y2 > height:
            return True
        return False
```

Both `return` statements sit inside the loop body, so only the first iterated
face is ever examined; an empty dict falls off the loop and returns `None`. -/

/-- A bounding box as stored in `bounding_box_dict`:
`[x1, y1, x2, y2]` from the SDK (floats, modelled as `ℚ`). -/
structure BBoxH where
  x1 : ℚ
  y1 : ℚ
  x2 : ℚ
  y2 : ℚ
  deriving DecidableEq, Repr

/-- `get_bounding_box_points(fid)` (lines 170–174): the four coordinates of
`bounding_box_dict[fid]` converted with `int()`. A `fid` absent from the dict
would raise `KeyError` in Python; the callers only pass keys of the dict, so
the `none` branch is unreachable there. -/
def get_bounding_box_points (bounding_box_dict : List (Nat × BBoxH)) (fid : Nat) :
    ℤ × ℤ × ℤ × ℤ :=
  match bounding_box_dict.lookup fid with
  | some bb => (AffSample.pyInt bb.x1, AffSample.pyInt bb.y1,
                AffSample.pyInt bb.x2, AffSample.pyInt bb.y2)
  | none => (0, 0, 0, 0)

/-- `check_bounding_box_outside(width, height)` (lines 565–570): the first
loop iteration returns `True` or `False`; the empty dict returns `None`. -/
def check_bounding_box_outside (width height : ℤ)
    (bounding_box_dict : List (Nat × BBoxH)) : Option Bool :=
  match bounding_box_dict with
  | [] => none
  | (fid, _) :: _ =>
    let p := get_bounding_box_points bounding_box_dict fid
    if p.1 < 0 ∨ p.2.2.1 > width ∨ p.2.1 < 0 ∨ p.2.2.2 > height then some true
    else some false

/-- Whether the (truncated) coordinates of `bb` cross a frame edge, exactly
the disjunction tested on line 568. -/
def firstBoxOutside (width height : ℤ) (bb : BBoxH) : Bool :=
  decide (AffSample.pyInt bb.x1 < 0 ∨ AffSample.pyInt bb.x2 > width ∨
          AffSample.pyInt bb.y1 < 0 ∨ AffSample.pyInt bb.y2 > height)

/-- C10: `check_bounding_box_outside` decides using only the first iterated
face — it returns `some true` iff that face's box crosses a frame edge and
`some false` otherwise, its result never depends on the remaining entries of
`bounding_box_dict`, and it returns `none` (Python `None`) on an empty
dict. -/
theorem check_bounding_box_outside_first_face_only (width height : ℤ) :
    check_bounding_box_outside width height [] = none ∧
    ∀ (fid : Nat) (bb : BBoxH) (rest rest' : List (Nat × BBoxH)),
      check_bounding_box_outside width height ((fid, bb) :: rest) =
        some (firstBoxOutside width height bb) ∧
      check_bounding_box_outside width height ((fid, bb) :: rest) =
        check_bounding_box_outside width height ((fid, bb) :: rest') := by
  refine ⟨rfl, fun fid bb rest rest' => ?_⟩
  have hbb : ∀ r : List (Nat × BBoxH),
      check_bounding_box_outside width height ((fid, bb) :: r) =
        some (firstBoxOutside width height bb) := by
    intro r
    simp only [check_bounding_box_outside, get_bounding_box_points,
      List.lookup, beq_self_eq_true, if_true, firstBoxOutside]
    by_cases h : AffSample.pyInt bb.x1 < 0 ∨ AffSample.pyInt bb.x2 > width ∨
        AffSample.pyInt bb.y1 < 0 ∨ AffSample.pyInt bb.y2 > height
    · simp [h]
    · simp [h]
  rw [hbb rest, hbb rest']
  exact ⟨rfl, rfl⟩

end AffHyphenSample

namespace ObjListener

/-! ## C7 — `ObjectListener` (`object_listener.py`)

`results_updated(objects, frame)` (lines 25–49) takes the mutex, bumps the
frame counter and `process_last_ts`, stores the `objects` reference, calls
`clear_all_dictionaries` (lines 56–65: the `confidence`, `bounding_box` and
`type` dicts are cleared and replaced by fresh empty dicts) and then, for
each `(oid, obj)` of `objects`, fills `bounding_box[oid]`, `type[oid]` and
`confidence[oid]`. -/

/-- Generic Python dict assignment `d[k] = v` for `Nat`-keyed dicts
(replace in place, or append a fresh key). -/
def ndset {α : Type} (d : List (Nat × α)) (k : Nat) (v : α) : List (Nat × α) :=
  match d with
  | [] => [(k, v)]
  | (k', v') :: rest => if k' = k then (k', v) :: rest else (k', v') :: ndset rest k v

/-- Keys of a `Nat`-keyed dict, in insertion order. -/
def nkeys {α : Type} (d : List (Nat × α)) : List Nat := d.map Prod.fst

/-- The fields of one detected object handed to the callback:
`obj.bounding_box` corner points, `obj.type` (an enum, modelled by its
name) and `obj.confidence`. -/
structure ObjData where
  tlx : ℚ
  tly : ℚ
  brx : ℚ
  bry : ℚ
  type : String
  confidence : ℚ
  deriving DecidableEq, Repr

/-- The mutable fields of an `ObjectListener` instance (`__init__`,
lines 12–23), minus the mutex itself, which the concurrency model of C2
carries separately. -/
structure ObjectListenerState where
  count : Nat
  process_last_ts : ℚ
  time_metrics_dict : List (String × ℚ)
  objects : List (Nat × ObjData)
  confidence : List (Nat × ℚ)
  bounding_box : List (Nat × List ℚ)
  type : List (Nat × String)
  deriving DecidableEq, Repr

/-- `clear_all_dictionaries` (lines 56–65): the three result dicts are
cleared and rebound to fresh empty dicts. -/
def clear_all_dictionaries (s : ObjectListenerState) : ObjectListenerState :=
  { s with confidence := [], bounding_box := [], type := [] }

/-- The body of the per-object loop of `results_updated` (lines 41–48),
applied to one `(oid, obj)` pair. -/
def storeObject (acc : ObjectListenerState) (p : Nat × ObjData) : ObjectListenerState :=
  { acc with
    bounding_box := ndset acc.bounding_box p.1 [p.2.tlx, p.2.tly, p.2.brx, p.2.bry],
    type := ndset acc.type p.1 p.2.type,
    confidence := ndset acc.confidence p.1 p.2.confidence }

/-- `results_updated(objects, frame)` (lines 25–49), with `frame.timestamp()`
passed in as `ts`; the `print` and the `process_fps` computation affect no
listener dict and are omitted from the state. -/
def results_updated (s : ObjectListenerState) (objects : List (Nat × ObjData))
    (ts : ℚ) : ObjectListenerState :=
  let s1 := { s with count := s.count + 1, process_last_ts := ts, objects := objects }
  let s2 := clear_all_dictionaries s1
  objects.foldl storeObject s2

lemma nkeys_ndset_not_mem {α : Type} {d : List (Nat × α)} {k : Nat} (v : α)
    (h : k ∉ nkeys d) : nkeys (ndset d k v) = nkeys d ++ [k] := by
  induction d with
  | nil => simp [ndset, nkeys]
  | cons p rest ih =>
    obtain ⟨k', v'⟩ := p
    simp only [nkeys, List.map_cons, List.mem_cons] at h
    push_neg at h
    have hk' : ¬ k' = k := fun hk => h.1 hk.symm
    have htail : k ∉ nkeys rest := by simpa [nkeys] using h.2
    simp only [ndset, if_neg hk', nkeys, List.map_cons]
    have := ih htail
    simp only [nkeys] at this
    simp [this]

lemma storeObject_fold_proj (objs : List (Nat × ObjData)) :
    ∀ acc : ObjectListenerState,
      (objs.foldl storeObject acc).bounding_box =
        objs.foldl (fun d p => ndset d p.1 [p.2.tlx, p.2.tly, p.2.brx, p.2.bry]) acc.bounding_box ∧
      (objs.foldl storeObject acc).confidence =
        objs.foldl (fun d p => ndset d p.1 p.2.confidence) acc.confidence ∧
      (objs.foldl storeObject acc).type =
        objs.foldl (fun d p => ndset d p.1 p.2.type) acc.type := by
  induction objs with
  | nil => intro acc; exact ⟨rfl, rfl, rfl⟩
  | cons p rest ih =>
    intro acc
    simpa [List.foldl_cons, storeObject] using ih (storeObject acc p)

lemma results_updated_proj (s : ObjectListenerState) (objects : List (Nat × ObjData))
    (ts : ℚ) :
    (results_updated s objects ts).bounding_box =
      objects.foldl (fun d p => ndset d p.1 [p.2.tlx, p.2.tly, p.2.brx, p.2.bry]) [] ∧
    (results_updated s objects ts).confidence =
      objects.foldl (fun d p => ndset d p.1 p.2.confidence) [] ∧
    (results_updated s objects ts).type =
      objects.foldl (fun d p => ndset d p.1 p.2.type) [] := by
  unfold results_updated clear_all_dictionaries
  exact storeObject_fold_proj objects _

lemma nkeys_fold_ndset {α β : Type} (g : Nat × β → α) (items : List (Nat × β)) :
    ∀ d : List (Nat × α), (items.map Prod.fst).Nodup →
      (∀ k ∈ items.map Prod.fst, k ∉ nkeys d) →
      nkeys (items.foldl (fun acc p => ndset acc p.1 (g p)) d) =
        nkeys d ++ items.map Prod.fst := by
  induction items with
  | nil => intro d _ _; simp
  | cons p rest ih =>
    intro d hnd hdisj
    simp only [List.map_cons, List.nodup_cons] at hnd
    have hp_not : p.1 ∉ nkeys d := hdisj p.1 (by simp)
    have hstep : nkeys (ndset d p.1 (g p)) = nkeys d ++ [p.1] :=
      nkeys_ndset_not_mem (g p) hp_not
    have hrest : ∀ k ∈ rest.map Prod.fst, k ∉ nkeys (ndset d p.1 (g p)) := by
      intro k hk
      rw [hstep]
      simp only [List.mem_append, List.mem_singleton]
      rintro (hkd | rfl)
      · exact hdisj k (by simp [hk]) hkd
      · exact hnd.1 hk
    simp only [List.foldl_cons]
    rw [ih (ndset d p.1 (g p)) hnd.2 hrest, hstep]
    simp

/-- C7: after every call to `results_updated`, the listener's
`bounding_box`, `confidence` and `type` dicts all have exactly the key set
of the `objects` argument of that call (given as `Nodup`, since `objects`
is itself a Python dict), and no entry from any earlier call remains: the
three result dicts do not depend on the pre-call listener state at all. -/
theorem object_listener_keeps_only_latest (s : ObjectListenerState)
    (objects : List (Nat × ObjData)) (ts : ℚ)
    (hnd : (objects.map Prod.fst).Nodup) :
    nkeys (results_updated s objects ts).bounding_box = objects.map Prod.fst ∧
    nkeys (results_updated s objects ts).confidence = objects.map Prod.fst ∧
    nkeys (results_updated s objects ts).type = objects.map Prod.fst ∧
    ∀ s' : ObjectListenerState,
      (results_updated s objects ts).bounding_box =
        (results_updated s' objects ts).bounding_box ∧
      (results_updated s objects ts).confidence =
        (results_updated s' objects ts).confidence ∧
      (results_updated s objects ts).type =
        (results_updated s' objects ts).type := by
  obtain ⟨h1, h2, h3⟩ := results_updated_proj s objects ts
  refine ⟨?_, ?_, ?_, ?_⟩
  · rw [h1]
    simpa using nkeys_fold_ndset (fun p => [p.2.tlx, p.2.tly, p.2.brx, p.2.bry])
      objects [] hnd (by simp [nkeys])
  · rw [h2]
    simpa using nkeys_fold_ndset (fun p => p.2.confidence) objects [] hnd (by simp [nkeys])
  · rw [h3]
    simpa using nkeys_fold_ndset (fun p => p.2.type) objects [] hnd (by simp [nkeys])
  · intro s'
    obtain ⟨h1', h2', h3'⟩ := results_updated_proj s' objects ts
    exact ⟨h1.trans h1'.symm, h2.trans h2'.symm, h3.trans h3'.symm⟩

/-- Concrete run of C7: a listener holding stale entries for ids 7 and 9
receives a callback reporting exactly ids 1 and 2; afterwards all three
dicts have key list `[1, 2]`. -/
theorem object_listener_keeps_only_latest_witness :
    nkeys (results_updated
      { count := 3, process_last_ts := 10, time_metrics_dict := [],
        objects := [], confidence := [(7, 1), (9, 1)],
        bounding_box := [(7, [0, 0, 1, 1]), (9, [2, 2, 3, 3])],
        type := [(7, "phone"), (9, "phone")] }
      [(1, ⟨0, 0, 5, 5, "phone", 97⟩), (2, ⟨1, 1, 6, 6, "phone", 88⟩)]
      20).bounding_box = [1, 2] :=
  (object_listener_keeps_only_latest _ _ 20 (by decide)).1

end ObjListener

namespace AffSample

/-! ## C4 / C8 — `write_object_metrics_to_csv_data_list` and
`write_occupant_metrics_to_csv_data_list` (`affvisionpy_sample.py`,
lines 397–431 and 433–468)

Both writers create `current_frame_data = {}` *once*, before the per-id
loop, then repeatedly mutate it and `csv_data.append(current_frame_data)`
once per id.  Appending a Python dict appends a *reference*, so object
identity matters here: rows are modelled as heap addresses (`Heap` below),
`csv_data` as a list of addresses, and the dict mutation as a heap write.

`listener_metrics` is the string-keyed dict literal built by the caller
(`process_object_input` lines 249–253, `process_occupant_input` lines
320–326); its values are dicts of heterogeneous types, captured by `MVal`. -/

/-- One value of the `listener_metrics` dict: a dict of id → list of numbers
(bounding boxes), id → number (confidences), id → enum/object name
(object types, regions, region types), or id → integer (region ids). -/
inductive MVal where
  | listD (d : List (Nat × List ℚ))
  | numD (d : List (Nat × ℚ))
  | strD (d : List (Nat × String))
  | intD (d : List (Nat × ℤ))
  deriving DecidableEq

/-- The `listener_metrics` dict: string keys, `MVal` values. -/
def Metrics := List (String × MVal)

/-- Dict lookup on `listener_metrics`. -/
def mlookup (m : Metrics) (k : String) : Option MVal :=
  match m with
  | [] => none
  | (k', v) :: rest => if k' = k then some v else mlookup rest k

/-- Key list of `listener_metrics` (what Python's `in` tests). -/
def mkeys (m : Metrics) : List String := m.map Prod.fst

def asListD : Option MVal → List (Nat × List ℚ)
  | some (.listD d) => d
  | _ => []

def asNumD : Option MVal → List (Nat × ℚ)
  | some (.numD d) => d
  | _ => []

def asStrD : Option MVal → List (Nat × String)
  | some (.strD d) => d
  | _ => []

def asIntD : Option MVal → List (Nat × ℤ)
  | some (.intD d) => d
  | _ => []

/-- Modelled from the spec: `get_bounding_box_points(id, bounding_box_dict)`
lives in `display_metrics.py`, which is not part of this repository snapshot;
per the spec's description of the result data ("bounding boxes" logged per
id) and its in-repo analogue (`affvisionpy-sample.py` lines 170–174) it
returns the four corner coordinates `upperLeftX, upperLeftY, lowerRightX,
lowerRightY` stored for `id` in the bounding-box dict. -/
def spec_get_bounding_box_points (oid : Nat) (bounding_box : List (Nat × List ℚ)) :
    ℚ × ℚ × ℚ × ℚ :=
  let l := ((bounding_box.lookup oid).getD [])
  (l.getD 0 0, l.getD 1 0, l.getD 2 0, l.getD 3 0)

/-- A heap of Python dict objects: `mem a` is the current contents of the
dict at address `a`, `next` the next fresh address. -/
structure Heap where
  mem : Nat → Row
  next : Nat

/-- Write the dict at address `a`. -/
def Heap.write (h : Heap) (a : Nat) (r : Row) : Heap :=
  { h with mem := fun x => if x = a then r else h.mem x }

/-- `{}`: allocate a fresh empty dict, returning its address. -/
def Heap.alloc (h : Heap) : Nat × Heap :=
  (h.next, { mem := fun x => if x = h.next then [] else h.mem x, next := h.next + 1 })

/-- The `'nan'` fallback row (`write_object_metrics_to_csv_data_list` lines
427–431 / occupant lines 464–468 / face lines 360–365): `TimeStamp`, then
`'nan'` for every remaining header field, built by successive dict
assignments on the empty dict. -/
def nanRow (header_row : List String) (timestamp : ℚ) : Row :=
  dsetList (dset [] "TimeStamp" (.q timestamp))
    (header_row.tail.map fun f => (f, .s "nan"))

/-- The field assignments done to `current_frame_data` for object id `oid`
in one iteration of the loop at lines 414–426, in program order. -/
def objRowFields (timestamp : ℚ) (lm : Metrics) (oid : Nat) : List (String × CellVal) :=
  let bb := spec_get_bounding_box_points oid (asListD (mlookup lm "bounding_box"))
  [("TimeStamp", .q timestamp), ("objectId", .i (oid : ℤ)),
   ("upperLeftX", .q bb.1), ("upperLeftY", .q bb.2.1),
   ("lowerRightX", .q bb.2.2.1), ("lowerRightY", .q bb.2.2.2),
   ("confidence", .i (pyRound (((asNumD (mlookup lm "confidence")).lookup oid).getD 0))),
   ("ObjectType", .s (((asStrD (mlookup lm "object_type")).lookup oid).getD ""))]

/-- The per-id loop of `write_object_metrics_to_csv_data_list` (lines
414–426): for each id, mutate the single dict at `addr` and append `addr`
to `csv_data`. -/
def objWriteLoop (timestamp : ℚ) (lm : Metrics) (addr : Nat) :
    List Nat → Heap → List Nat → Heap × List Nat
  | [], h, csv_data => (h, csv_data)
  | oid :: rest, h, csv_data =>
    objWriteLoop timestamp lm addr rest
      (h.write addr (dsetList (h.mem addr) (objRowFields timestamp lm oid)))
      (csv_data ++ [addr])

/-- `write_object_metrics_to_csv_data_list` (lines 397–431):
`current_frame_data = {}` once, then either the per-id loop over
`listener_metrics["object_type"].keys()` (when `"object_type" in
listener_metrics`) or the single `'nan'` row. -/
def write_object_metrics_to_csv_data_list (header_row : List String)
    (timestamp : ℚ) (lm : Metrics) (h : Heap) (csv_data : List Nat) :
    Heap × List Nat :=
  let a := h.alloc
  if "object_type" ∈ mkeys lm then
    objWriteLoop timestamp lm a.1
      ((asStrD (mlookup lm "object_type")).map Prod.fst) a.2 csv_data
  else
    (a.2.write a.1 (nanRow header_row timestamp), csv_data ++ [a.1])

/-- The field assignments done to `current_frame_data` for occupant id
`occid` in one iteration of the loop at lines 450–463, in program order. -/
def occRowFields (timestamp : ℚ) (lm : Metrics) (occid : Nat) : List (String × CellVal) :=
  let bb := spec_get_bounding_box_points occid (asListD (mlookup lm "bounding_box"))
  [("TimeStamp", .q timestamp), ("occupantId", .i (occid : ℤ)),
   ("upperLeftX", .q bb.1), ("upperLeftY", .q bb.2.1),
   ("lowerRightX", .q bb.2.2.1), ("lowerRightY", .q bb.2.2.2),
   ("confidence", .i (pyRound (((asNumD (mlookup lm "confidence")).lookup occid).getD 0))),
   ("regionId", .i (((asIntD (mlookup lm "region_id")).lookup occid).getD 0)),
   ("regionType", .s (((asStrD (mlookup lm "region_type")).lookup occid).getD ""))]

/-- The per-id loop of `write_occupant_metrics_to_csv_data_list` (lines
450–463), iterating over `listener_metrics["bounding_box"].keys()`. -/
def occWriteLoop (timestamp : ℚ) (lm : Metrics) (addr : Nat) :
    List Nat → Heap → List Nat → Heap × List Nat
  | [], h, csv_data => (h, csv_data)
  | occid :: rest, h, csv_data =>
    occWriteLoop timestamp lm addr rest
      (h.write addr (dsetList (h.mem addr) (occRowFields timestamp lm occid)))
      (csv_data ++ [addr])

/-- `write_occupant_metrics_to_csv_data_list` (lines 433–468). -/
def write_occupant_metrics_to_csv_data_list (header_row : List String)
    (timestamp : ℚ) (lm : Metrics) (h : Heap) (csv_data : List Nat) :
    Heap × List Nat :=
  let a := h.alloc
  if "bounding_box" ∈ mkeys lm then
    occWriteLoop timestamp lm a.1
      ((asListD (mlookup lm "bounding_box")).map Prod.fst) a.2 csv_data
  else
    (a.2.write a.1 (nanRow header_row timestamp), csv_data ++ [a.1])

/-- The `listener_metrics` dict literal built by `process_object_input`
(lines 249–253) from the copies of the listener's dicts. -/
def mkObjectListenerMetrics (bounding_box_dict : List (Nat × List ℚ))
    (confidence_dict : List (Nat × ℚ)) (type_dict : List (Nat × String)) : Metrics :=
  [("bounding_box", .listD bounding_box_dict),
   ("confidence", .numD confidence_dict),
   ("object_type", .strD type_dict)]

/-- The `listener_metrics` dict literal built by `process_occupant_input`
(lines 320–326); the `region` dict's values are opaque SDK region objects,
modelled by strings (the writer never reads them). -/
def mkOccupantListenerMetrics (bounding_box_dict : List (Nat × List ℚ))
    (confidence_dict : List (Nat × ℚ)) (region_id_dict : List (Nat × ℤ))
    (region_dict : List (Nat × String)) (region_type_dict : List (Nat × String)) :
    Metrics :=
  [("bounding_box", .listD bounding_box_dict),
   ("confidence", .numD confidence_dict),
   ("region_id", .intD region_id_dict),
   ("region", .strD region_dict),
   ("region_type", .strD region_type_dict)]

end AffSample

namespace AffSample

lemma Heap.mem_write_self (h : Heap) (a : Nat) (r : Row) :
    (h.write a r).mem a = r := by
  simp [Heap.write]

/-- A row is either still the fresh empty dict or has been through at least
one iteration of the object loop (then it has exactly the eight object
fields, in program order). -/
def objShape (r : Row) : Prop :=
  r = [] ∨ ∃ a1 a2 a3 a4 a5 a6 a7 a8 : CellVal,
    r = [("TimeStamp", a1), ("objectId", a2), ("upperLeftX", a3), ("upperLeftY", a4),
         ("lowerRightX", a5), ("lowerRightY", a6), ("confidence", a7), ("ObjectType", a8)]

lemma dsetList_nil_objRowFields (ts : ℚ) (lm : Metrics) (oid : Nat) :
    dsetList [] (objRowFields ts lm oid) = objRowFields ts lm oid := by
  simp [dsetList, objRowFields, dset, List.foldl]

lemma dsetList_full_objRowFields (ts : ℚ) (lm : Metrics) (oid : Nat)
    (a1 a2 a3 a4 a5 a6 a7 a8 : CellVal) :
    dsetList [("TimeStamp", a1), ("objectId", a2), ("upperLeftX", a3), ("upperLeftY", a4),
              ("lowerRightX", a5), ("lowerRightY", a6), ("confidence", a7), ("ObjectType", a8)]
      (objRowFields ts lm oid) = objRowFields ts lm oid := by
  simp [dsetList, objRowFields, dset, List.foldl]

lemma objShape_objRowFields (ts : ℚ) (lm : Metrics) (oid : Nat) :
    objShape (objRowFields ts lm oid) := by
  right
  exact ⟨_, _, _, _, _, _, _, _, rfl⟩

lemma dsetList_objShape {r : Row} (hr : objShape r) (ts : ℚ) (lm : Metrics) (oid : Nat) :
    dsetList r (objRowFields ts lm oid) = objRowFields ts lm oid := by
  rcases hr with rfl | ⟨a1, a2, a3, a4, a5, a6, a7, a8, rfl⟩
  · exact dsetList_nil_objRowFields ts lm oid
  · exact dsetList_full_objRowFields ts lm oid a1 a2 a3 a4 a5 a6 a7 a8

lemma objWriteLoop_ptrs (ts : ℚ) (lm : Metrics) (addr : Nat) :
    ∀ (ids : List Nat) (h : Heap) (csv : List Nat),
      (objWriteLoop ts lm addr ids h csv).2 = csv ++ List.replicate ids.length addr := by
  intro ids
  induction ids with
  | nil => intro h csv; simp [objWriteLoop]
  | cons oid rest ih =>
    intro h csv
    simp only [objWriteLoop, List.length_cons, List.replicate_succ]
    rw [ih]
    simp

lemma objWriteLoop_mem (ts : ℚ) (lm : Metrics) (addr : Nat) :
    ∀ (ids : List Nat) (h : Heap) (csv : List Nat),
      objShape (h.mem addr) →
      ∀ o : Nat, ids.getLast? = some o →
        ((objWriteLoop ts lm addr ids h csv).1).mem addr = objRowFields ts lm o := by
  intro ids
  induction ids with
  | nil => intro h csv _ o ho; simp at ho
  | cons oid rest ih =>
    intro h csv hshape o ho
    simp only [objWriteLoop]
    have hmem : (h.write addr (dsetList (h.mem addr) (objRowFields ts lm oid))).mem addr =
        objRowFields ts lm oid := by
      rw [Heap.mem_write_self, dsetList_objShape hshape]
    rcases rest with _ | ⟨oid2, rest2⟩
    · simp only [List.getLast?_singleton, Option.some_inj] at ho
      subst ho
      simpa [objWriteLoop] using hmem
    · have ho' : (oid2 :: rest2).getLast? = some o := by
        rw [← ho]; simp [List.getLast?_cons_cons]
      exact ih _ _ (by rw [hmem]; exact objShape_objRowFields ts lm oid) o ho'

/-- Same development for the occupant loop. -/
def occShape (r : Row) : Prop :=
  r = [] ∨ ∃ a1 a2 a3 a4 a5 a6 a7 a8 a9 : CellVal,
    r = [("TimeStamp", a1), ("occupantId", a2), ("upperLeftX", a3), ("upperLeftY", a4),
         ("lowerRightX", a5), ("lowerRightY", a6), ("confidence", a7), ("regionId", a8),
         ("regionType", a9)]

lemma dsetList_occShape {r : Row} (hr : occShape r) (ts : ℚ) (lm : Metrics) (occid : Nat) :
    dsetList r (occRowFields ts lm occid) = occRowFields ts lm occid := by
  rcases hr with rfl | ⟨a1, a2, a3, a4, a5, a6, a7, a8, a9, rfl⟩
  · simp [dsetList, occRowFields, dset, List.foldl]
  · simp [dsetList, occRowFields, dset, List.foldl]

lemma occShape_occRowFields (ts : ℚ) (lm : Metrics) (occid : Nat) :
    occShape (occRowFields ts lm occid) := by
  right
  exact ⟨_, _, _, _, _, _, _, _, _, rfl⟩

lemma occWriteLoop_ptrs (ts : ℚ) (lm : Metrics) (addr : Nat) :
    ∀ (ids : List Nat) (h : Heap) (csv : List Nat),
      (occWriteLoop ts lm addr ids h csv).2 = csv ++ List.replicate ids.length addr := by
  intro ids
  induction ids with
  | nil => intro h csv; simp [occWriteLoop]
  | cons oid rest ih =>
    intro h csv
    simp only [occWriteLoop, List.length_cons, List.replicate_succ]
    rw [ih]
    simp

lemma occWriteLoop_mem (ts : ℚ) (lm : Metrics) (addr : Nat) :
    ∀ (ids : List Nat) (h : Heap) (csv : List Nat),
      occShape (h.mem addr) →
      ∀ o : Nat, ids.getLast? = some o →
        ((occWriteLoop ts lm addr ids h csv).1).mem addr = occRowFields ts lm o := by
  intro ids
  induction ids with
  | nil => intro h csv _ o ho; simp at ho
  | cons oid rest ih =>
    intro h csv hshape o ho
    simp only [occWriteLoop]
    have hmem : (h.write addr (dsetList (h.mem addr) (occRowFields ts lm oid))).mem addr =
        occRowFields ts lm oid := by
      rw [Heap.mem_write_self, dsetList_occShape hshape]
    rcases rest with _ | ⟨oid2, rest2⟩
    · simp only [List.getLast?_singleton, Option.some_inj] at ho
      subst ho
      simpa [occWriteLoop] using hmem
    · have ho' : (oid2 :: rest2).getLast? = some o := by
        rw [← ho]; simp [List.getLast?_cons_cons]
      exact ih _ _ (by rw [hmem]; exact occShape_occRowFields ts lm oid) o ho'

lemma mlookup_mkObject_type (bb : List (Nat × List ℚ)) (conf : List (Nat × ℚ))
    (ty : List (Nat × String)) :
    mlookup (mkObjectListenerMetrics bb conf ty) "object_type" = some (.strD ty) := by
  simp [mlookup, mkObjectListenerMetrics]

lemma mlookup_mkOccupant_bb (bb : List (Nat × List ℚ)) (conf : List (Nat × ℚ))
    (rid : List (Nat × ℤ)) (reg rt : List (Nat × String)) :
    mlookup (mkOccupantListenerMetrics bb conf rid reg rt) "bounding_box" =
      some (.listD bb) := by
  simp [mlookup, mkOccupantListenerMetrics]

/-- C4: in both `write_object_metrics_to_csv_data_list` and
`write_occupant_metrics_to_csv_data_list` the single `current_frame_data`
dict is allocated once (here: address `h.next`), mutated and appended once
per id, so when two or more objects (occupants) are reported, every row
appended for that frame is the *same* dict object, and after the loop its
contents equal the data of the last iterated id. -/
theorem shared_current_frame_data_rows (header : List String) (ts : ℚ)
    (bb : List (Nat × List ℚ)) (conf : List (Nat × ℚ)) (ty : List (Nat × String))
    (obb : List (Nat × List ℚ)) (oconf : List (Nat × ℚ)) (orid : List (Nat × ℤ))
    (oreg ort : List (Nat × String))
    (h h2 : Heap) (csv csv2 : List Nat) (o o2 : Nat)
    (_hlen : 2 ≤ ty.length) (hlast : (ty.map Prod.fst).getLast? = some o)
    (_hlen2 : 2 ≤ obb.length) (hlast2 : (obb.map Prod.fst).getLast? = some o2) :
    ((write_object_metrics_to_csv_data_list header ts
        (mkObjectListenerMetrics bb conf ty) h csv).2 =
      csv ++ List.replicate ty.length h.next) ∧
    ((write_object_metrics_to_csv_data_list header ts
        (mkObjectListenerMetrics bb conf ty) h csv).1.mem h.next =
      objRowFields ts (mkObjectListenerMetrics bb conf ty) o) ∧
    ((write_occupant_metrics_to_csv_data_list header ts
        (mkOccupantListenerMetrics obb oconf orid oreg ort) h2 csv2).2 =
      csv2 ++ List.replicate obb.length h2.next) ∧
    ((write_occupant_metrics_to_csv_data_list header ts
        (mkOccupantListenerMetrics obb oconf orid oreg ort) h2 csv2).1.mem h2.next =
      occRowFields ts (mkOccupantListenerMetrics obb oconf orid oreg ort) o2) := by
  have hcond : "object_type" ∈ mkeys (mkObjectListenerMetrics bb conf ty) := by
    simp [mkeys, mkObjectListenerMetrics]
  have hcond2 : "bounding_box" ∈ mkeys (mkOccupantListenerMetrics obb oconf orid oreg ort) := by
    simp [mkeys, mkOccupantListenerMetrics]
  have hwo : write_object_metrics_to_csv_data_list header ts
      (mkObjectListenerMetrics bb conf ty) h csv =
      objWriteLoop ts (mkObjectListenerMetrics bb conf ty) h.next
        (ty.map Prod.fst) (h.alloc).2 csv := by
    simp [write_object_metrics_to_csv_data_list, hcond, Heap.alloc,
      mlookup_mkObject_type, asStrD]
  have hwc : write_occupant_metrics_to_csv_data_list header ts
      (mkOccupantListenerMetrics obb oconf orid oreg ort) h2 csv2 =
      occWriteLoop ts (mkOccupantListenerMetrics obb oconf orid oreg ort) h2.next
        (obb.map Prod.fst) (h2.alloc).2 csv2 := by
    simp [write_occupant_metrics_to_csv_data_list, hcond2, Heap.alloc,
      mlookup_mkOccupant_bb, asListD]
  have hfresh : ((h.alloc).2).mem h.next = [] := by simp [Heap.alloc]
  have hfresh2 : ((h2.alloc).2).mem h2.next = [] := by simp [Heap.alloc]
  refine ⟨?_, ?_, ?_, ?_⟩
  · rw [hwo, objWriteLoop_ptrs]
    simp
  · rw [hwo]
    exact objWriteLoop_mem ts _ h.next (ty.map Prod.fst) (h.alloc).2 csv
      (by rw [hfresh]; exact Or.inl rfl) o hlast
  · rw [hwc, occWriteLoop_ptrs]
    simp
  · rw [hwc]
    exact occWriteLoop_mem ts _ h2.next (obb.map Prod.fst) (h2.alloc).2 csv2
      (by rw [hfresh2]; exact Or.inl rfl) o2 hlast2

end AffSample

namespace AffSample

/-- Concrete run of C4: two phones (ids 1, 2) and two occupants (ids 4, 5)
reported in one frame; both rows appended by each writer are the same dict
object — the address `0` freshly allocated for `current_frame_data`. -/
theorem shared_current_frame_data_rows_witness :
    (write_object_metrics_to_csv_data_list ["TimeStamp"] 100
      (mkObjectListenerMetrics [(1, [0, 0, 2, 2]), (2, [1, 1, 3, 3])]
        [(1, 90), (2, 80)] [(1, "phone"), (2, "phone")])
      ⟨fun _ => [], 0⟩ []).2 = [0, 0] ∧
    (write_occupant_metrics_to_csv_data_list ["TimeStamp"] 100
      (mkOccupantListenerMetrics [(4, [0, 0, 2, 2]), (5, [1, 1, 3, 3])]
        [(4, 70), (5, 60)] [(4, 3), (5, 4)] [] [(4, "seat"), (5, "seat")])
      ⟨fun _ => [], 0⟩ []).2 = [0, 0] := by
  have h := shared_current_frame_data_rows ["TimeStamp"] 100
    [(1, [0, 0, 2, 2]), (2, [1, 1, 3, 3])] [(1, 90), (2, 80)]
    [(1, "phone"), (2, "phone")]
    [(4, [0, 0, 2, 2]), (5, [1, 1, 3, 3])] [(4, 70), (5, 60)] [(4, 3), (5, 4)]
    [] [(4, "seat"), (5, "seat")]
    ⟨fun _ => [], 0⟩ ⟨fun _ => [], 0⟩ [] [] 2 5
    (by decide) (by decide) (by decide) (by decide)
  refine ⟨?_, ?_⟩
  · have := h.1
    simpa [List.replicate] using this
  · have := h.2.2.1
    simpa [List.replicate] using this

/-- C8: the `'nan'` fallback branches of the object and occupant CSV writers
are unreachable from the processing loops — the `listener_metrics` dict
literals built at the call sites always contain the tested key
(`'object_type'` resp. `'bounding_box'`), so the per-id branch is always
taken, and a processed frame with zero detected objects (occupants) appends
no row at all. -/
theorem nan_fallback_branches_unreachable :
    (∀ (bb : List (Nat × List ℚ)) (conf : List (Nat × ℚ)) (ty : List (Nat × String)),
      "object_type" ∈ mkeys (mkObjectListenerMetrics bb conf ty)) ∧
    (∀ (bb : List (Nat × List ℚ)) (conf : List (Nat × ℚ)) (rid : List (Nat × ℤ))
        (reg rt : List (Nat × String)),
      "bounding_box" ∈ mkeys (mkOccupantListenerMetrics bb conf rid reg rt)) ∧
    (∀ (header : List String) (ts : ℚ) (bb : List (Nat × List ℚ))
        (conf : List (Nat × ℚ)) (h : Heap) (csv : List Nat),
      (write_object_metrics_to_csv_data_list header ts
        (mkObjectListenerMetrics bb conf []) h csv).2 = csv) ∧
    (∀ (header : List String) (ts : ℚ) (conf : List (Nat × ℚ))
        (rid : List (Nat × ℤ)) (reg rt : List (Nat × String)) (h : Heap)
        (csv : List Nat),
      (write_occupant_metrics_to_csv_data_list header ts
        (mkOccupantListenerMetrics [] conf rid reg rt) h csv).2 = csv) := by
  refine ⟨?_, ?_, ?_, ?_⟩
  · intro bb conf ty
    simp [mkeys, mkObjectListenerMetrics]
  · intro bb conf rid reg rt
    simp [mkeys, mkOccupantListenerMetrics]
  · intro header ts bb conf h csv
    have hcond : "object_type" ∈ mkeys (mkObjectListenerMetrics bb conf []) := by
      simp [mkeys, mkObjectListenerMetrics]
    simp [write_object_metrics_to_csv_data_list, hcond, mlookup_mkObject_type,
      asStrD, objWriteLoop]
  · intro header ts conf rid reg rt h csv
    have hcond : "bounding_box" ∈ mkeys (mkOccupantListenerMetrics [] conf rid reg rt) := by
      simp [mkeys, mkOccupantListenerMetrics]
    simp [write_occupant_metrics_to_csv_data_list, hcond, mlookup_mkOccupant_bb,
      asListD, occWriteLoop]

end AffSample

namespace AffSample

/-! ## C6 — `write_face_metrics_to_csv_data_list` (`affvisionpy_sample.py`,
lines 345–395)

Unlike the object/occupant writers, the face writer creates a *fresh*
`current_frame_data = {}` inside the per-id loop, so plain value-level rows
suffice here.  The per-frame dicts of the face listener (`listener.py` is
not part of this snapshot; the loop in `process_face_input` lines 156–176
copies `measurements_dict`, `expressions_dict`, `emotions_dict`,
`bounding_box_dict`, `gaze_metric_dict`, `glasses_dict`, optionally
`identities_dict`) are modelled as: the measurements dict as an ordered
association list (its keys drive the loop), the others as total maps from a
face id, matching their `defaultdict` reads `...[fid]`. -/

/-- The gaze metric object stored per face id: `gaze_region` (an enum,
modelled by its `.name`) and a confidence value. -/
structure GazeMetric where
  gaze_region : String
  confidence : ℚ
  deriving DecidableEq

/-- The `listener_metrics` dict built in `process_face_input` lines 169–178:
per-face-id metric dicts copied from the image listener.  Each bounding-box
entry is the 5-element list `[x1, y1, x2, y2, confidence]` (line 382 reads
index 4 as the face confidence).  `identities` is present iff
`--identity` was given (lines 177–178). -/
structure FaceListenerMetrics where
  measurements : List (Nat × List (String × ℚ))
  emotions : Nat → List (String × ℚ)
  expressions : Nat → List (String × ℚ)
  bounding_box : Nat → List ℚ
  gaze_metric : Nat → GazeMetric
  glasses : Nat → ℚ
  identities : Option (Nat → ℤ)

/-- Modelled from the spec: the face-mode
`get_bounding_box_points(fid, bounding_box_dict)` of the missing
`display_metrics.py` returns the four corner coordinates
`upperLeftX, upperLeftY, lowerRightX, lowerRightY` stored for the face. -/
def specBBoxCorners (l : List ℚ) : ℚ × ℚ × ℚ × ℚ :=
  (l.getD 0 0, l.getD 1 0, l.getD 2 0, l.getD 3 0)

/-- Lookup in the `identity_names_dict` read from `identities.csv`. -/
def slookup (d : List (String × String)) (k : String) : Option String :=
  match d with
  | [] => none
  | (k', v) :: rest => if k' = k then some v else slookup rest k

/-- The dict assignments done to the fresh `current_frame_data` for face id
`fid` with measurement items `meas`, in program order (lines 369–394):
TimeStamp, faceId, the four corners, the rounded measurement, emotion and
expression values under their enum names, the bounding-box confidence,
the identity block when enabled, gaze region name, gaze confidence
(a string, line 393 `str(...)`), and the rounded glasses value. -/
def faceBaseFields (ts : ℚ) (lm : FaceListenerMetrics) (fid : Nat) :
    List (String × CellVal) :=
  let bb := specBBoxCorners (lm.bounding_box fid)
  [("TimeStamp", CellVal.q ts), ("faceId", CellVal.i (fid : ℤ)),
   ("upperLeftX", CellVal.q bb.1), ("upperLeftY", CellVal.q bb.2.1),
   ("lowerRightX", CellVal.q bb.2.2.1), ("lowerRightY", CellVal.q bb.2.2.2)]

/-- The assignments after the three metric loops, lines 382–394: the
bounding-box confidence, the identity block when `--identity` is enabled
(line 384 `"identities" in listener_metrics`), and the gaze/glasses
fields. -/
def faceTailFields (lm : FaceListenerMetrics)
    (identity_names : List (String × String)) (fid : Nat) :
    List (String × CellVal) :=
  [("confidence", CellVal.q (round4 ((lm.bounding_box fid).getD 4 0)))] ++
  (match lm.identities with
   | some ids =>
     [("identity", CellVal.i (ids fid)),
      ("name", CellVal.s ((slookup identity_names (toString (ids fid))).getD "Unknown"))]
   | none => []) ++
  [("gaze_region", CellVal.s (lm.gaze_metric fid).gaze_region),
   ("gaze_confidence", CellVal.s (toString (lm.gaze_metric fid).confidence)),
   ("glasses", CellVal.i (pyRound (lm.glasses fid)))]

def faceRowFields (ts : ℚ) (lm : FaceListenerMetrics)
    (identity_names : List (String × String)) (fid : Nat)
    (meas : List (String × ℚ)) : List (String × CellVal) :=
  faceBaseFields ts lm fid ++
  meas.map (fun kv => (kv.1, CellVal.q (round4 kv.2))) ++
  (lm.emotions fid).map (fun kv => (kv.1, CellVal.q (round4 kv.2))) ++
  (lm.expressions fid).map (fun kv => (kv.1, CellVal.q (round4 kv.2))) ++
  faceTailFields lm identity_names fid

/-- One appended row for face id `fid`: the fresh `{}` dict after the
assignment sequence. -/
def faceRow (ts : ℚ) (lm : FaceListenerMetrics)
    (identity_names : List (String × String)) (fid : Nat)
    (meas : List (String × ℚ)) : Row :=
  dsetList [] (faceRowFields ts lm identity_names fid meas)

/-- `write_face_metrics_to_csv_data_list` (lines 345–395): one `'nan'` row
when the measurements dict is empty, otherwise one fresh row per face id of
the measurements dict, each appended to `csv_data`. -/
def write_face_metrics_to_csv_data_list (header_row : List String)
    (csv_data : List Row) (timestamp : ℚ) (lm : FaceListenerMetrics)
    (identity_names : List (String × String)) : List Row :=
  if lm.measurements = [] then
    csv_data ++ [nanRow header_row timestamp]
  else
    csv_data ++ lm.measurements.map
      (fun p => faceRow timestamp lm identity_names p.1 p.2)

/-- The fixed field names that the face writer assigns outside the three
metric loops. -/
def faceFixedFields : List String :=
  ["TimeStamp", "faceId", "upperLeftX", "upperLeftY", "lowerRightX",
   "lowerRightY", "confidence", "identity", "name", "gaze_region",
   "gaze_confidence", "glasses"]

/-- All metric enum names appearing for face id `fid`. -/
def faceMetricNames (lm : FaceListenerMetrics) (fid : Nat)
    (meas : List (String × ℚ)) : List String :=
  meas.map Prod.fst ++ (lm.emotions fid).map Prod.fst ++
    (lm.expressions fid).map Prod.fst

end AffSample

namespace AffSample

lemma dlookup_dset_self (r : Row) (k : String) (v : CellVal) :
    dlookup (dset r k v) k = some v := by
  induction r with
  | nil => simp [dset, dlookup]
  | cons p rest ih =>
    obtain ⟨k', v'⟩ := p
    by_cases h : k' = k
    · subst h; simp [dset, dlookup]
    · simp [dset, dlookup, h, ih]

lemma dlookup_dset_ne (r : Row) {k k' : String} (v : CellVal) (h : k ≠ k') :
    dlookup (dset r k' v) k = dlookup r k := by
  have h' : k' ≠ k := Ne.symm h
  induction r with
  | nil => simp [dset, dlookup, h']
  | cons p rest ih =>
    obtain ⟨k0, v0⟩ := p
    by_cases h0 : k0 = k'
    · subst h0; simp [dset, dlookup, h']
    · by_cases hk : k0 = k
      · subst hk; simp [dset, dlookup, h0]
      · simp [dset, dlookup, h0, hk, ih]

lemma dsetList_append (r : Row) (xs ys : List (String × CellVal)) :
    dsetList r (xs ++ ys) = dsetList (dsetList r xs) ys := by
  simp [dsetList, List.foldl_append]

lemma dlookup_dsetList_not_mem :
    ∀ (kvs : List (String × CellVal)) (r : Row) {k : String},
      k ∉ kvs.map Prod.fst → dlookup (dsetList r kvs) k = dlookup r k := by
  intro kvs
  induction kvs with
  | nil => intro r k _; rfl
  | cons p rest ih =>
    intro r k hk
    simp only [List.map_cons, List.mem_cons] at hk
    push_neg at hk
    have hstep : dsetList r (p :: rest) = dsetList (dset r p.1 p.2) rest := rfl
    rw [hstep, ih _ hk.2, dlookup_dset_ne _ _ hk.1]

lemma dlookup_dsetList_mem_nodup :
    ∀ (kvs : List (String × CellVal)) (r : Row) {k : String} {v : CellVal},
      (k, v) ∈ kvs → (kvs.map Prod.fst).Nodup →
      dlookup (dsetList r kvs) k = some v := by
  intro kvs
  induction kvs with
  | nil => intro r k v h _; simp at h
  | cons p rest ih =>
    intro r k v hmem hnd
    simp only [List.map_cons, List.nodup_cons] at hnd
    rcases List.mem_cons.mp hmem with heq | htl
    · obtain rfl := heq.symm
      have hstep : dsetList r ((k, v) :: rest) = dsetList (dset r k v) rest := rfl
      rw [hstep, dlookup_dsetList_not_mem rest _ hnd.1, dlookup_dset_self]
    · have hk : k ≠ p.1 := by
        intro hkk
        exact hnd.1 (hkk ▸ List.mem_map_of_mem Prod.fst htl)
      have hstep : dsetList r (p :: rest) = dsetList (dset r p.1 p.2) rest := rfl
      rw [hstep]
      exact ih _ htl hnd.2

lemma dlookup_dsetList_const :
    ∀ (kvs : List (String × CellVal)) (r : Row) {k : String} {v0 : CellVal},
      (∀ p ∈ kvs, p.2 = v0) → k ∈ kvs.map Prod.fst →
      dlookup (dsetList r kvs) k = some v0 := by
  intro kvs
  induction kvs with
  | nil => intro r k v0 _ hk; simp at hk
  | cons p rest ih =>
    intro r k v0 hall hk
    by_cases hkrest : k ∈ rest.map Prod.fst
    · exact ih _ (fun q hq => hall q (List.mem_cons_of_mem p hq)) hkrest
    · have hk1 : k = p.1 := by
        simp only [List.map_cons, List.mem_cons] at hk
        tauto
      have hstep : dsetList r (p :: rest) = dsetList (dset r p.1 p.2) rest := rfl
      rw [hstep, dlookup_dsetList_not_mem rest _ hkrest, hk1, dlookup_dset_self]
      exact congrArg some (hall p (List.mem_cons_self p rest))

/-- The keys the tail segment can write. -/
def faceTailKeysBound : List String :=
  ["confidence", "identity", "name", "gaze_region", "gaze_confidence", "glasses"]

lemma faceTail_keys_sub (lm : FaceListenerMetrics)
    (inames : List (String × String)) (fid : Nat) :
    ∀ x ∈ (faceTailFields lm inames fid).map Prod.fst, x ∈ faceTailKeysBound := by
  intro x hx
  rcases hid : lm.identities with _ | ids
  · simp [faceTailFields, hid] at hx
    rcases hx with rfl | rfl | rfl | rfl <;> simp [faceTailKeysBound]
  · simp [faceTailFields, hid] at hx
    rcases hx with rfl | rfl | rfl | rfl | rfl | rfl <;> simp [faceTailKeysBound]

lemma faceTailKeysBound_sub_fixed : ∀ x ∈ faceTailKeysBound, x ∈ faceFixedFields := by
  decide

lemma faceTail_keys_nodup (lm : FaceListenerMetrics)
    (inames : List (String × String)) (fid : Nat) :
    ((faceTailFields lm inames fid).map Prod.fst).Nodup := by
  rcases hid : lm.identities with _ | ids
  · simp [faceTailFields, hid]
  · simp [faceTailFields, hid]

lemma faceTail_mem_confidence (lm : FaceListenerMetrics)
    (inames : List (String × String)) (fid : Nat) :
    ("confidence", CellVal.q (round4 ((lm.bounding_box fid).getD 4 0))) ∈
      faceTailFields lm inames fid := by
  rcases hid : lm.identities with _ | ids <;> simp [faceTailFields, hid]

lemma faceTail_mem_gaze_region (lm : FaceListenerMetrics)
    (inames : List (String × String)) (fid : Nat) :
    ("gaze_region", CellVal.s (lm.gaze_metric fid).gaze_region) ∈
      faceTailFields lm inames fid := by
  rcases hid : lm.identities with _ | ids <;> simp [faceTailFields, hid]

lemma faceTail_mem_gaze_confidence (lm : FaceListenerMetrics)
    (inames : List (String × String)) (fid : Nat) :
    ("gaze_confidence", CellVal.s (toString (lm.gaze_metric fid).confidence)) ∈
      faceTailFields lm inames fid := by
  rcases hid : lm.identities with _ | ids <;> simp [faceTailFields, hid]

lemma faceTail_mem_glasses (lm : FaceListenerMetrics)
    (inames : List (String × String)) (fid : Nat) :
    ("glasses", CellVal.i (pyRound (lm.glasses fid))) ∈
      faceTailFields lm inames fid := by
  rcases hid : lm.identities with _ | ids <;> simp [faceTailFields, hid]

end AffSample

namespace AffSample

lemma faceRow_lookups (ts : ℚ) (lm : FaceListenerMetrics)
    (inames : List (String × String)) (fid : Nat) (meas : List (String × ℚ))
    (hnd : (faceMetricNames lm fid meas).Nodup)
    (hfix : ∀ n ∈ faceMetricNames lm fid meas, n ∉ faceFixedFields) :
    dlookup (faceRow ts lm inames fid meas) "TimeStamp" = some (CellVal.q ts) ∧
    dlookup (faceRow ts lm inames fid meas) "faceId" = some (CellVal.i (fid : ℤ)) ∧
    dlookup (faceRow ts lm inames fid meas) "upperLeftX" =
      some (CellVal.q (specBBoxCorners (lm.bounding_box fid)).1) ∧
    dlookup (faceRow ts lm inames fid meas) "upperLeftY" =
      some (CellVal.q (specBBoxCorners (lm.bounding_box fid)).2.1) ∧
    dlookup (faceRow ts lm inames fid meas) "lowerRightX" =
      some (CellVal.q (specBBoxCorners (lm.bounding_box fid)).2.2.1) ∧
    dlookup (faceRow ts lm inames fid meas) "lowerRightY" =
      some (CellVal.q (specBBoxCorners (lm.bounding_box fid)).2.2.2) ∧
    dlookup (faceRow ts lm inames fid meas) "confidence" =
      some (CellVal.q (round4 ((lm.bounding_box fid).getD 4 0))) ∧
    (∀ k v, (k, v) ∈ meas →
      dlookup (faceRow ts lm inames fid meas) k = some (CellVal.q (round4 v))) ∧
    (∀ k v, (k, v) ∈ lm.emotions fid →
      dlookup (faceRow ts lm inames fid meas) k = some (CellVal.q (round4 v))) ∧
    (∀ k v, (k, v) ∈ lm.expressions fid →
      dlookup (faceRow ts lm inames fid meas) k = some (CellVal.q (round4 v))) ∧
    dlookup (faceRow ts lm inames fid meas) "gaze_region" =
      some (CellVal.s (lm.gaze_metric fid).gaze_region) ∧
    dlookup (faceRow ts lm inames fid meas) "gaze_confidence" =
      some (CellVal.s (toString (lm.gaze_metric fid).confidence)) ∧
    dlookup (faceRow ts lm inames fid meas) "glasses" =
      some (CellVal.i (pyRound (lm.glasses fid))) := by
  simp only [faceMetricNames] at hnd hfix
  obtain ⟨hndME, hndX, hdisjMEX⟩ := List.nodup_append.mp hnd
  obtain ⟨hndM, hndE, hdisjME⟩ := List.nodup_append.mp hndME
  have hMk : (meas.map (fun kv => (kv.1, CellVal.q (round4 kv.2)))).map Prod.fst =
      meas.map Prod.fst := by simp
  have hEk : ((lm.emotions fid).map (fun kv => (kv.1, CellVal.q (round4 kv.2)))).map Prod.fst =
      (lm.emotions fid).map Prod.fst := by simp
  have hXk : ((lm.expressions fid).map (fun kv => (kv.1, CellVal.q (round4 kv.2)))).map Prod.fst =
      (lm.expressions fid).map Prod.fst := by simp
  have hTk_fixed : ∀ x ∈ (faceTailFields lm inames fid).map Prod.fst, x ∈ faceFixedFields :=
    fun x hx => faceTailKeysBound_sub_fixed x (faceTail_keys_sub lm inames fid x hx)
  have h3 : faceRow ts lm inames fid meas =
      dsetList (dsetList (dsetList (dsetList (dsetList [] (faceBaseFields ts lm fid))
          (meas.map (fun kv => (kv.1, CellVal.q (round4 kv.2)))))
          ((lm.emotions fid).map (fun kv => (kv.1, CellVal.q (round4 kv.2)))))
          ((lm.expressions fid).map (fun kv => (kv.1, CellVal.q (round4 kv.2)))))
        (faceTailFields lm inames fid) := by
    rw [faceRow, faceRowFields, dsetList_append, dsetList_append, dsetList_append,
      dsetList_append]
  have hAnodup : ((faceBaseFields ts lm fid).map Prod.fst).Nodup := by
    simp [faceBaseFields]
  have hMnodup : ((meas.map (fun kv => (kv.1, CellVal.q (round4 kv.2)))).map Prod.fst).Nodup := by
    rw [hMk]; exact hndM
  have hEnodup : (((lm.emotions fid).map (fun kv => (kv.1, CellVal.q (round4 kv.2)))).map Prod.fst).Nodup := by
    rw [hEk]; exact hndE
  have hXnodup : (((lm.expressions fid).map (fun kv => (kv.1, CellVal.q (round4 kv.2)))).map Prod.fst).Nodup := by
    rw [hXk]; exact hndX
  have hbaseA : ∀ (f : String) (v : CellVal), (f, v) ∈ faceBaseFields ts lm fid →
      f ∈ faceFixedFields → f ∉ faceTailKeysBound →
      dlookup (faceRow ts lm inames fid meas) f = some v := by
    intro f v hmem hfixf hnb
    have hfM : f ∉ (meas.map (fun kv => (kv.1, CellVal.q (round4 kv.2)))).map Prod.fst := by
      rw [hMk]; intro hmm
      exact hfix f (List.mem_append_left _ (List.mem_append_left _ hmm)) hfixf
    have hfE : f ∉ ((lm.emotions fid).map (fun kv => (kv.1, CellVal.q (round4 kv.2)))).map Prod.fst := by
      rw [hEk]; intro hmm
      exact hfix f (List.mem_append_left _ (List.mem_append_right _ hmm)) hfixf
    have hfX : f ∉ ((lm.expressions fid).map (fun kv => (kv.1, CellVal.q (round4 kv.2)))).map Prod.fst := by
      rw [hXk]; intro hmm
      exact hfix f (List.mem_append_right _ hmm) hfixf
    have hfT : f ∉ (faceTailFields lm inames fid).map Prod.fst := by
      intro hmm
      exact hnb (faceTail_keys_sub lm inames fid f hmm)
    rw [h3, dlookup_dsetList_not_mem _ _ hfT, dlookup_dsetList_not_mem _ _ hfX,
      dlookup_dsetList_not_mem _ _ hfE, dlookup_dsetList_not_mem _ _ hfM]
    exact dlookup_dsetList_mem_nodup _ _ hmem hAnodup
  refine ⟨?_, ?_, ?_, ?_, ?_, ?_, ?_, ?_, ?_, ?_, ?_, ?_, ?_⟩
  · exact hbaseA "TimeStamp" _ (by simp [faceBaseFields]) (by decide) (by decide)
  · exact hbaseA "faceId" _ (by simp [faceBaseFields]) (by decide) (by decide)
  · exact hbaseA "upperLeftX" _ (by simp [faceBaseFields]) (by decide) (by decide)
  · exact hbaseA "upperLeftY" _ (by simp [faceBaseFields]) (by decide) (by decide)
  · exact hbaseA "lowerRightX" _ (by simp [faceBaseFields]) (by decide) (by decide)
  · exact hbaseA "lowerRightY" _ (by simp [faceBaseFields]) (by decide) (by decide)
  · rw [h3]
    exact dlookup_dsetList_mem_nodup _ _ (faceTail_mem_confidence lm inames fid)
      (faceTail_keys_nodup lm inames fid)
  · intro k v hkv
    have hkMn : k ∈ meas.map Prod.fst := List.mem_map_of_mem Prod.fst hkv
    have hkE : k ∉ ((lm.emotions fid).map (fun kv => (kv.1, CellVal.q (round4 kv.2)))).map Prod.fst := by
      rw [hEk]; exact fun h => hdisjME hkMn h
    have hkX : k ∉ ((lm.expressions fid).map (fun kv => (kv.1, CellVal.q (round4 kv.2)))).map Prod.fst := by
      rw [hXk]; exact fun h => hdisjMEX (List.mem_append_left _ hkMn) h
    have hkT : k ∉ (faceTailFields lm inames fid).map Prod.fst := by
      intro h
      exact hfix k (List.mem_append_left _ (List.mem_append_left _ hkMn)) (hTk_fixed k h)
    rw [h3, dlookup_dsetList_not_mem _ _ hkT, dlookup_dsetList_not_mem _ _ hkX,
      dlookup_dsetList_not_mem _ _ hkE]
    exact dlookup_dsetList_mem_nodup _ _
      (List.mem_map_of_mem (fun kv => (kv.1, CellVal.q (round4 kv.2))) hkv) hMnodup
  · intro k v hkv
    have hkEn : k ∈ (lm.emotions fid).map Prod.fst := List.mem_map_of_mem Prod.fst hkv
    have hkX : k ∉ ((lm.expressions fid).map (fun kv => (kv.1, CellVal.q (round4 kv.2)))).map Prod.fst := by
      rw [hXk]; exact fun h => hdisjMEX (List.mem_append_right _ hkEn) h
    have hkT : k ∉ (faceTailFields lm inames fid).map Prod.fst := by
      intro h
      exact hfix k (List.mem_append_left _ (List.mem_append_right _ hkEn)) (hTk_fixed k h)
    rw [h3, dlookup_dsetList_not_mem _ _ hkT, dlookup_dsetList_not_mem _ _ hkX]
    exact dlookup_dsetList_mem_nodup _ _
      (List.mem_map_of_mem (fun kv => (kv.1, CellVal.q (round4 kv.2))) hkv) hEnodup
  · intro k v hkv
    have hkXn : k ∈ (lm.expressions fid).map Prod.fst := List.mem_map_of_mem Prod.fst hkv
    have hkT : k ∉ (faceTailFields lm inames fid).map Prod.fst := by
      intro h
      exact hfix k (List.mem_append_right _ hkXn) (hTk_fixed k h)
    rw [h3, dlookup_dsetList_not_mem _ _ hkT]
    exact dlookup_dsetList_mem_nodup _ _
      (List.mem_map_of_mem (fun kv => (kv.1, CellVal.q (round4 kv.2))) hkv) hXnodup
  · rw [h3]
    exact dlookup_dsetList_mem_nodup _ _ (faceTail_mem_gaze_region lm inames fid)
      (faceTail_keys_nodup lm inames fid)
  · rw [h3]
    exact dlookup_dsetList_mem_nodup _ _ (faceTail_mem_gaze_confidence lm inames fid)
      (faceTail_keys_nodup lm inames fid)
  · rw [h3]
    exact dlookup_dsetList_mem_nodup _ _ (faceTail_mem_glasses lm inames fid)
      (faceTail_keys_nodup lm inames fid)

end AffSample

namespace AffSample

/-- `HEADER_ROW_FACES` (`affvisionpy_sample.py` lines 28–36). -/
def HEADER_ROW_FACES : List String :=
  ["TimeStamp", "faceId", "upperLeftX", "upperLeftY", "lowerRightX", "lowerRightY",
   "confidence", "interocular_distance", "pitch", "yaw", "roll", "joy", "anger",
   "surprise", "valence", "fear", "sadness", "disgust", "neutral", "contempt",
   "smile", "brow_raise", "brow_furrow", "nose_wrinkle", "upper_lip_raise",
   "mouth_open", "eye_closure", "cheek_raise", "yawn", "blink", "blink_rate",
   "eye_widen", "inner_brow_raise", "lip_corner_depressor", "gaze_region",
   "gaze_confidence", "glasses"]

/-- `HEADER_ROW_OBJECTS` (lines 38–39). -/
def HEADER_ROW_OBJECTS : List String :=
  ["TimeStamp", "objectId", "confidence", "upperLeftX", "upperLeftY",
   "lowerRightX", "lowerRightY", "ObjectType"]

/-- `HEADER_ROW_OCCUPANTS` (line 41). -/
def HEADER_ROW_OCCUPANTS : List String :=
  ["TimeStamp", "occupantId", "confidence", "regionId", "regionType",
   "upperLeftX", "upperLeftY", "lowerRightX", "lowerRightY"]

/-- C6: in face mode, a processed frame with an empty measurements dict
appends exactly one row — `TimeStamp` is the frame's rounded timestamp and
every other header field is the string `'nan'`; otherwise one row is
appended per face id, containing the timestamp, the face id, the
bounding-box corners and confidence, every measurement/emotion/expression
value rounded to 4 decimal places, the gaze region name and confidence, and
the (rounded) glasses value.  The metric-name side conditions record that
the SDK's enum names are distinct and disjoint from the fixed CSV fields,
as they are in `affvisionpy`. -/
theorem face_mode_csv_rows (header : List String) (csv : List Row) (ts : ℚ)
    (lm : FaceListenerMetrics) (inames : List (String × String))
    (hts : "TimeStamp" ∉ header.tail) :
    (lm.measurements = [] →
      write_face_metrics_to_csv_data_list header csv ts lm inames =
        csv ++ [nanRow header ts] ∧
      dlookup (nanRow header ts) "TimeStamp" = some (CellVal.q ts) ∧
      ∀ f ∈ header.tail, dlookup (nanRow header ts) f = some (CellVal.s "nan")) ∧
    (lm.measurements ≠ [] →
      write_face_metrics_to_csv_data_list header csv ts lm inames =
        csv ++ lm.measurements.map (fun p => faceRow ts lm inames p.1 p.2) ∧
      ∀ fid meas, (fid, meas) ∈ lm.measurements →
        (faceMetricNames lm fid meas).Nodup →
        (∀ n ∈ faceMetricNames lm fid meas, n ∉ faceFixedFields) →
        dlookup (faceRow ts lm inames fid meas) "TimeStamp" = some (CellVal.q ts) ∧
        dlookup (faceRow ts lm inames fid meas) "faceId" = some (CellVal.i (fid : ℤ)) ∧
        dlookup (faceRow ts lm inames fid meas) "upperLeftX" =
          some (CellVal.q (specBBoxCorners (lm.bounding_box fid)).1) ∧
        dlookup (faceRow ts lm inames fid meas) "upperLeftY" =
          some (CellVal.q (specBBoxCorners (lm.bounding_box fid)).2.1) ∧
        dlookup (faceRow ts lm inames fid meas) "lowerRightX" =
          some (CellVal.q (specBBoxCorners (lm.bounding_box fid)).2.2.1) ∧
        dlookup (faceRow ts lm inames fid meas) "lowerRightY" =
          some (CellVal.q (specBBoxCorners (lm.bounding_box fid)).2.2.2) ∧
        dlookup (faceRow ts lm inames fid meas) "confidence" =
          some (CellVal.q (round4 ((lm.bounding_box fid).getD 4 0))) ∧
        (∀ k v, (k, v) ∈ meas →
          dlookup (faceRow ts lm inames fid meas) k = some (CellVal.q (round4 v))) ∧
        (∀ k v, (k, v) ∈ lm.emotions fid →
          dlookup (faceRow ts lm inames fid meas) k = some (CellVal.q (round4 v))) ∧
        (∀ k v, (k, v) ∈ lm.expressions fid →
          dlookup (faceRow ts lm inames fid meas) k = some (CellVal.q (round4 v))) ∧
        dlookup (faceRow ts lm inames fid meas) "gaze_region" =
          some (CellVal.s (lm.gaze_metric fid).gaze_region) ∧
        dlookup (faceRow ts lm inames fid meas) "gaze_confidence" =
          some (CellVal.s (toString (lm.gaze_metric fid).confidence)) ∧
        dlookup (faceRow ts lm inames fid meas) "glasses" =
          some (CellVal.i (pyRound (lm.glasses fid)))) := by
  have hmapfst : ∀ l : List String,
      (l.map (fun f => (f, CellVal.s "nan"))).map Prod.fst = l := by
    intro l
    induction l with
    | nil => rfl
    | cons a t ih => simp [ih]
  have hkeys : (header.tail.map (fun f => (f, CellVal.s "nan"))).map Prod.fst =
      header.tail := hmapfst header.tail
  constructor
  · intro hempty
    refine ⟨by simp [write_face_metrics_to_csv_data_list, hempty], ?_, ?_⟩
    · rw [nanRow, dlookup_dsetList_not_mem _ _ (by rw [hkeys]; exact hts),
        dlookup_dset_self]
    · intro f hf
      rw [nanRow]
      refine dlookup_dsetList_const _ _ ?_ (by rw [hkeys]; exact hf)
      intro p hp
      rcases List.mem_map.mp hp with ⟨g, _, rfl⟩
      rfl
  · intro hne
    refine ⟨by simp [write_face_metrics_to_csv_data_list, hne], ?_⟩
    intro fid meas _ hnd hfix
    exact faceRow_lookups ts lm inames fid meas hnd hfix

/-- Concrete run of C6: with no measurements the writer appends the single
`'nan'` row (e.g. the `joy` field reads `'nan'`); with one face having a
`pitch` measurement, that face's row holds the rounded value. -/
theorem face_mode_csv_rows_witness :
    (write_face_metrics_to_csv_data_list HEADER_ROW_FACES [] 33
      ⟨[], fun _ => [], fun _ => [], fun _ => [], fun _ => ⟨"unknown", 0⟩,
       fun _ => 0, none⟩ [] = [nanRow HEADER_ROW_FACES 33]) ∧
    dlookup (nanRow HEADER_ROW_FACES 33) "joy" = some (CellVal.s "nan") ∧
    dlookup (faceRow 33 ⟨[(1, [("pitch", 1/2)])], fun _ => [], fun _ => [],
      fun _ => [], fun _ => ⟨"unknown", 0⟩, fun _ => 0, none⟩ [] 1
      [("pitch", 1/2)]) "pitch" = some (CellVal.q (round4 (1/2))) := by
  have h1 := (face_mode_csv_rows HEADER_ROW_FACES [] 33
    ⟨[], fun _ => [], fun _ => [], fun _ => [], fun _ => ⟨"unknown", 0⟩,
     fun _ => 0, none⟩ [] (by decide)).1 rfl
  have h2 := ((face_mode_csv_rows HEADER_ROW_FACES [] 33
    ⟨[(1, [("pitch", 1/2)])], fun _ => [], fun _ => [], fun _ => [],
     fun _ => ⟨"unknown", 0⟩, fun _ => 0, none⟩ [] (by decide)).2
    (by simp)).2 1 [("pitch", 1/2)] (by simp) (by decide) (by decide)
  exact ⟨by simpa using h1.1, h1.2.2 "joy" (by decide),
    h2.2.2.2.2.2.2.2.1 "pitch" (1/2) (by simp)⟩

end AffSample

namespace AffSample

/-! ## C5 / C9 — the per-frame iteration bodies

The models below transcribe the body of the `if curr_timestamp >
last_timestamp or count == 0` branch of `process_face_input` (lines
144–194) and `process_object_input` (lines 230–265) /
`process_occupant_input` (lines 299–338): `count += 1`; `try:
detector.process(afframe) except Exception as exp: print(exp)` (the `try`
wraps *only* the `process` call); the mutex-guarded copy of the listener
dicts; the CSV write; the overlay drawing guarded by
`len(faces/objects/occupants) > 0 and not check_bounding_box_outside(...)`;
the unconditional Affectiva logo; `cv2.imshow`.  Whether `detector.process`
raised is the boolean `raises`; the listener snapshot taken under the mutex
is passed in explicitly (the callback runs on the SDK's thread and its
effect on the snapshot is opaque to this branch). -/

/-- Python's `round(x, 0)`: round to an integral value. -/
def round0 (x : ℚ) : ℚ := ((round x : ℤ) : ℚ)

/-- Modelled from the spec: `check_bounding_box_outside(width, height,
bounding_box_dict)` of the missing `display_metrics.py` — whether some
reported bounding box lies (partly) outside the frame boundaries, as in its
in-repo analogue `affvisionpy-sample.py` lines 565–570 (without that file's
first-entry-only slip, which C10 treats separately). -/
def spec_check_bounding_box_outside (width height : ℚ)
    (bbd : List (Nat × List ℚ)) : Bool :=
  bbd.any (fun p =>
    decide (p.2.getD 0 0 < 0 ∨ p.2.getD 2 0 > width ∨
            p.2.getD 1 0 < 0 ∨ p.2.getD 3 0 > height))

/-- Observable effects of one processed face-mode frame. -/
structure FaceIterResult where
  errorPrinted : Bool
  csv_data : List Row
  logoDrawn : Bool
  overlaysDrawn : Bool
  displayed : Bool
  count : Nat
  last_timestamp : ℚ
  deriving Repr

/-- Observable effects of one processed object/occupant-mode frame
(`csv_data` is the address list of the heap-based writers). -/
structure ObjIterResult where
  errorPrinted : Bool
  heap : Heap
  csvPtrs : List Nat
  logoDrawn : Bool
  overlaysDrawn : Bool
  displayed : Bool
  count : Nat
  last_timestamp : ℚ

/-- The processed branch of `process_face_input` (lines 144–194). -/
def faceIterationProcessedBranch (raises : Bool) (header : List String)
    (csv : List Row) (curr_timestamp : ℚ) (count : Nat) (width height : ℚ)
    (faces_len : Nat) (meas : List (Nat × List (String × ℚ)))
    (emo expr : Nat → List (String × ℚ)) (bbdict : List (Nat × List ℚ))
    (gaze : Nat → GazeMetric) (glasses : Nat → ℚ) (idents : Option (Nat → ℤ))
    (inames : List (String × String)) : FaceIterResult :=
  let lm : FaceListenerMetrics :=
    { measurements := meas, emotions := emo, expressions := expr,
      bounding_box := fun fid => (bbdict.lookup fid).getD [],
      gaze_metric := gaze, glasses := glasses, identities := idents }
  { errorPrinted := raises
    csv_data := write_face_metrics_to_csv_data_list header csv
      (round0 curr_timestamp) lm inames
    logoDrawn := true
    overlaysDrawn := decide (0 < faces_len) &&
      !(spec_check_bounding_box_outside width height bbdict)
    displayed := true
    count := count + 1
    last_timestamp := curr_timestamp }

/-- The processed branch of `process_object_input` (lines 230–265). -/
def objIterationProcessedBranch (raises : Bool) (header : List String)
    (h : Heap) (csv : List Nat) (curr_timestamp : ℚ) (count : Nat)
    (width height : ℚ) (objects_len : Nat) (bb : List (Nat × List ℚ))
    (conf : List (Nat × ℚ)) (ty : List (Nat × String)) : ObjIterResult :=
  let w := write_object_metrics_to_csv_data_list header (round0 curr_timestamp)
    (mkObjectListenerMetrics bb conf ty) h csv
  { errorPrinted := raises
    heap := w.1
    csvPtrs := w.2
    logoDrawn := true
    overlaysDrawn := decide (0 < objects_len) &&
      !(spec_check_bounding_box_outside width height bb)
    displayed := true
    count := count + 1
    last_timestamp := curr_timestamp }

/-- The processed branch of `process_occupant_input` (lines 299–338). -/
def occIterationProcessedBranch (raises : Bool) (header : List String)
    (h : Heap) (csv : List Nat) (curr_timestamp : ℚ) (count : Nat)
    (width height : ℚ) (occupants_len : Nat) (bb : List (Nat × List ℚ))
    (conf : List (Nat × ℚ)) (rid : List (Nat × ℤ)) (reg rt : List (Nat × String)) :
    ObjIterResult :=
  let w := write_occupant_metrics_to_csv_data_list header (round0 curr_timestamp)
    (mkOccupantListenerMetrics bb conf rid reg rt) h csv
  { errorPrinted := raises
    heap := w.1
    csvPtrs := w.2
    logoDrawn := true
    overlaysDrawn := decide (0 < occupants_len) &&
      !(spec_check_bounding_box_outside width height bb)
    displayed := true
    count := count + 1
    last_timestamp := curr_timestamp }

end AffSample

namespace AffSample

lemma write_face_appends (header : List String) (csv : List Row) (ts : ℚ)
    (lm : FaceListenerMetrics) (inames : List (String × String)) :
    csv.length < (write_face_metrics_to_csv_data_list header csv ts lm inames).length := by
  by_cases hm : lm.measurements = []
  · simp [write_face_metrics_to_csv_data_list, hm]
  · simp only [write_face_metrics_to_csv_data_list, hm, if_false, List.length_append,
      List.length_map]
    have : 0 < lm.measurements.length := List.length_pos.mpr hm
    omega

/-- C5 counterexample: an object-mode frame on which `detector.process`
raised and whose copied listener dicts are empty (the callback never fired)
appends *no* row to `csv_data` — `csvPtrs` stays `[]` — contradicting the
claim that after a caught exception "a row is still recorded in
csv_data". -/
theorem exception_row_recorded_counterexample :
    (objIterationProcessedBranch true HEADER_ROW_OBJECTS ⟨fun _ => [], 0⟩ []
      5 0 10 10 0 [] [] []).csvPtrs = [] := by
  rfl

/-- C5 (amended): when `detector.process` raises, the exception is caught
and printed and the iteration continues exactly as in the non-raising case:
the listener copies feed the same CSV write (in face mode at least one row
is always appended; in object mode rows are appended exactly as the writer
dictates for the copied dicts), the frame is still rendered, and `count`
increments exactly once — no retry, no termination. -/
theorem exception_caught_iteration_continues (header : List String)
    (csv : List Row) (ts : ℚ) (count : Nat) (w h : ℚ) (faces_len : Nat)
    (meas : List (Nat × List (String × ℚ))) (emo expr : Nat → List (String × ℚ))
    (bbdict : List (Nat × List ℚ)) (gaze : Nat → GazeMetric) (gl : Nat → ℚ)
    (idents : Option (Nat → ℤ)) (inames : List (String × String))
    (hp : Heap) (csvp : List Nat) (objects_len : Nat)
    (bb : List (Nat × List ℚ)) (conf : List (Nat × ℚ)) (ty : List (Nat × String)) :
    (faceIterationProcessedBranch true header csv ts count w h faces_len meas
        emo expr bbdict gaze gl idents inames =
      { faceIterationProcessedBranch false header csv ts count w h faces_len meas
          emo expr bbdict gaze gl idents inames with errorPrinted := true }) ∧
    csv.length < (faceIterationProcessedBranch true header csv ts count w h
      faces_len meas emo expr bbdict gaze gl idents inames).csv_data.length ∧
    (faceIterationProcessedBranch true header csv ts count w h faces_len meas
      emo expr bbdict gaze gl idents inames).count = count + 1 ∧
    (objIterationProcessedBranch true header hp csvp ts count w h objects_len
        bb conf ty =
      { objIterationProcessedBranch false header hp csvp ts count w h objects_len
          bb conf ty with errorPrinted := true }) ∧
    (objIterationProcessedBranch true header hp csvp ts count w h objects_len
      bb conf ty).count = count + 1 := by
  refine ⟨rfl, ?_, rfl, rfl, rfl⟩
  exact write_face_appends header csv (round0 ts) _ inames

/-- C9: in all three modes the Affectiva logo is drawn on every processed
frame unconditionally, while the result overlays are drawn iff the listener
reported at least one face/object/occupant *and* no reported bounding box
lies outside the frame boundaries (the final conjunct unfolds the modelled
`check_bounding_box_outside` into exactly that reading). -/
theorem logo_unconditional_overlays_guarded (raises : Bool)
    (header : List String) (csv : List Row) (ts : ℚ) (count : Nat) (w h : ℚ)
    (faces_len : Nat) (meas : List (Nat × List (String × ℚ)))
    (emo expr : Nat → List (String × ℚ)) (bbdict : List (Nat × List ℚ))
    (gaze : Nat → GazeMetric) (gl : Nat → ℚ) (idents : Option (Nat → ℤ))
    (inames : List (String × String)) (hp hp2 : Heap) (csvp csvp2 : List Nat)
    (objects_len occupants_len : Nat) (bb obb : List (Nat × List ℚ))
    (conf oconf : List (Nat × ℚ)) (ty : List (Nat × String))
    (orid : List (Nat × ℤ)) (oreg ort : List (Nat × String)) :
    (faceIterationProcessedBranch raises header csv ts count w h faces_len meas
      emo expr bbdict gaze gl idents inames).logoDrawn = true ∧
    ((faceIterationProcessedBranch raises header csv ts count w h faces_len meas
        emo expr bbdict gaze gl idents inames).overlaysDrawn = true ↔
      (0 < faces_len ∧ spec_check_bounding_box_outside w h bbdict = false)) ∧
    (objIterationProcessedBranch raises header hp csvp ts count w h objects_len
      bb conf ty).logoDrawn = true ∧
    ((objIterationProcessedBranch raises header hp csvp ts count w h objects_len
        bb conf ty).overlaysDrawn = true ↔
      (0 < objects_len ∧ spec_check_bounding_box_outside w h bb = false)) ∧
    (occIterationProcessedBranch raises header hp2 csvp2 ts count w h
      occupants_len obb oconf orid oreg ort).logoDrawn = true ∧
    ((occIterationProcessedBranch raises header hp2 csvp2 ts count w h
        occupants_len obb oconf orid oreg ort).overlaysDrawn = true ↔
      (0 < occupants_len ∧ spec_check_bounding_box_outside w h obb = false)) ∧
    (∀ (wd ht : ℚ) (d : List (Nat × List ℚ)),
      spec_check_bounding_box_outside wd ht d = false ↔
        ∀ p ∈ d, ¬(p.2.getD 0 0 < 0 ∨ p.2.getD 2 0 > wd ∨
                    p.2.getD 1 0 < 0 ∨ p.2.getD 3 0 > ht)) := by
  refine ⟨rfl, ?_, rfl, ?_, rfl, ?_, ?_⟩
  · simp [faceIterationProcessedBranch, Bool.and_eq_true, decide_eq_true_eq,
      Bool.not_eq_true']
  · simp [objIterationProcessedBranch, Bool.and_eq_true, decide_eq_true_eq,
      Bool.not_eq_true']
  · simp [occIterationProcessedBranch, Bool.and_eq_true, decide_eq_true_eq,
      Bool.not_eq_true']
  · intro wd ht d
    simp [spec_check_bounding_box_outside, List.any_eq_false]

end AffSample

namespace AffSample

/-! ## C3 — CSV writing on shutdown

`run` (`affvisionpy_sample.py` lines 105–114) writes the CSV only
conditionally: always for a video-file input (munging the default file
name from the input path), but for a camera input only when a non-default
`-f` name was given.  `write_csv_data_to_file` (lines 470–490) appends
`".csv"` when missing, then emits the header row and one `csv.DictWriter`
row per entry of `csv_data`, in order.  A `DictWriter` row renders each
header field from the dict (missing fields as the empty `restval`); a dict
key outside the header raises `ValueError`, modelled as `none`. -/

/-- How Python's `csv` module renders one cell value. -/
def cellToString : CellVal → String
  | .s v => v
  | .q v => toString v
  | .i v => toString v

/-- One `DictWriter.writerow` line: the row's value for each header field,
`''` (the default `restval`) when absent. -/
def csvProjRow (header : List String) (r : Row) : List String :=
  header.map (fun f =>
    match dlookup r f with
    | some v => cellToString v
    | none => "")

/-- Successive `writerow` calls; a row with a key outside `fieldnames`
raises `ValueError` (`none`). -/
def writeRows (header : List String) : List Row → Option (List (List String))
  | [] => some []
  | r :: rest =>
    if r.all (fun p => p.1 ∈ header) then
      (writeRows header rest).map (fun out => csvProjRow header r :: out)
    else none

/-- `write_csv_data_to_file` (lines 470–490): returns the file name actually
opened and the emitted lines (header first). -/
def write_csv_data_to_file (csv_data : List Row) (header_row : List String)
    (csv_file : String) : String × Option (List (List String)) :=
  let fname := if (csv_file.splitOn ".csv").length = 1 then csv_file ++ ".csv"
    else csv_file
  (fname, (writeRows header_row csv_data).map (fun rows => header_row :: rows))

/-- The shutdown tail of `run` (lines 105–114): `none` means no CSV file is
written at all.  `os.sep` is `"/"`. -/
def runShutdownWrite (input_is_camera : Bool) (input_file csv_file : String)
    (header_row : List String) (csv_data : List Row) :
    Option (String × Option (List (List String))) :=
  if input_is_camera = false then
    let f0 := if csv_file = "default" then
        (let f1 := if (input_file.splitOn "/").length ≠ 1 then
            ((input_file.splitOn "/").getLast?.getD input_file)
          else csv_file
         (f1.splitOn ".").getD 0 f1)
      else csv_file
    some (write_csv_data_to_file csv_data header_row f0)
  else
    if csv_file = "default" then none
    else some (write_csv_data_to_file csv_data header_row csv_file)

/-- `write_csv_data_to_file` of `affvisionpy-sample.py` (lines 646–660):
the header row is a local constant, the write is unconditional in its `run`
(line 506), and `keys = csv_data[0].keys()` raises `IndexError` on an empty
`csv_data` (before `writeheader`), modelled as `none`. -/
def hyphen_write_csv_data_to_file (header_row : List String)
    (csv_data : List Row) : Option (List (List String)) :=
  if csv_data = [] then none
  else (writeRows header_row csv_data).map (fun rows => header_row :: rows)

lemma writeRows_all_ok (header : List String) :
    ∀ csv_data : List Row, (∀ r ∈ csv_data, ∀ p ∈ r, p.1 ∈ header) →
      writeRows header csv_data = some (csv_data.map (csvProjRow header)) := by
  intro csv_data
  induction csv_data with
  | nil => intro _; rfl
  | cons r rest ih =>
    intro hk
    have hr : r.all (fun p => decide (p.1 ∈ header)) = true := by
      rw [List.all_eq_true]
      intro p hp
      exact decide_eq_true (hk r (List.mem_cons_self r rest) p hp)
    have := ih (fun q hq p hp => hk q (List.mem_cons_of_mem r hq) p hp)
    simp [writeRows, hr, this]

/-- C3 counterexample: a camera-input run that leaves the CSV file name at
its default writes no CSV file on shutdown (lines 112–114 skip the write),
contradicting "for every run of the program ... the csv_data list is
written to a CSV file". -/
theorem csv_on_shutdown_counterexample :
    runShutdownWrite true "0" "default" HEADER_ROW_FACES
      [[("TimeStamp", CellVal.q 3)]] = none := by
  rfl

/-- C3 (amended): on shutdown `affvisionpy_sample.py` writes the
accumulated `csv_data` — the mode's header row first, then one CSV row per
appended entry, in append order — whenever the input is a video file; with
camera input it writes only when a non-default CSV file name was given and
otherwise writes nothing.  `affvisionpy-sample.py`'s `run` always writes on
shutdown, in the same header-then-rows order, whenever `csv_data` is
nonempty.  (The key side condition says row keys lie in the header, as the
writers guarantee; otherwise `csv.DictWriter` raises.) -/
theorem csv_on_shutdown_amended (input_file csv_file : String)
    (header : List String) (csv_data : List Row)
    (hkeys : ∀ r ∈ csv_data, ∀ p ∈ r, p.1 ∈ header)
    (hne : csv_data ≠ []) :
    (∃ fname, runShutdownWrite false input_file csv_file header csv_data =
      some (fname, some (header :: csv_data.map (csvProjRow header)))) ∧
    (csv_file ≠ "default" →
      ∃ fname, runShutdownWrite true input_file csv_file header csv_data =
        some (fname, some (header :: csv_data.map (csvProjRow header)))) ∧
    (runShutdownWrite true input_file "default" header csv_data = none) ∧
    (hyphen_write_csv_data_to_file header csv_data =
      some (header :: csv_data.map (csvProjRow header))) := by
  have hw := writeRows_all_ok header csv_data hkeys
  have hwrite : ∀ f : String, ∃ fname,
      write_csv_data_to_file csv_data header f =
        (fname, some (header :: csv_data.map (csvProjRow header))) := by
    intro f
    refine ⟨if (f.splitOn ".csv").length = 1 then f ++ ".csv" else f, ?_⟩
    simp [write_csv_data_to_file, hw]
  refine ⟨?_, ?_, ?_, ?_⟩
  · obtain ⟨f0, hrun⟩ : ∃ f, runShutdownWrite false input_file csv_file header csv_data =
        some (write_csv_data_to_file csv_data header f) := ⟨_, rfl⟩
    obtain ⟨fname, hf⟩ := hwrite f0
    exact ⟨fname, by rw [hrun, hf]⟩
  · intro hdef
    have hrun : runShutdownWrite true input_file csv_file header csv_data =
        some (write_csv_data_to_file csv_data header csv_file) := by
      simp [runShutdownWrite, hdef]
    obtain ⟨fname, hf⟩ := hwrite csv_file
    exact ⟨fname, by rw [hrun, hf]⟩
  · simp [runShutdownWrite]
  · simp [hyphen_write_csv_data_to_file, hne, hw]

/-- Concrete run of C3 (amended): a video-file run with the default CSV
name writes `default.csv` containing the object header then the single
accumulated row. -/
theorem csv_on_shutdown_amended_witness :
    ∃ fname, runShutdownWrite false "video.mp4" "default" HEADER_ROW_OBJECTS
      [[("TimeStamp", CellVal.q 3)]] =
      some (fname, some (HEADER_ROW_OBJECTS ::
        [[("TimeStamp", CellVal.q 3)]].map (csvProjRow HEADER_ROW_OBJECTS))) :=
  (csv_on_shutdown_amended "video.mp4" "default" HEADER_ROW_OBJECTS
    [[("TimeStamp", CellVal.q 3)]] (by decide) (by decide)).1

end AffSample

namespace Conc

/-! ## C2 — mutex-guarded hand-off of the listener result dicts

An interleaving model of the two threads of the object pipeline:

* the SDK callback thread running `ObjectListener.results_updated`
  (`object_listener.py` lines 25–49): `mutex.acquire()`; scalar updates;
  `clear_all_dictionaries()` (clear the old dicts, rebind three fresh ones,
  lines 56–65); one write per reported object; `mutex.release()`;
* the main thread's copy section (`process_object_input` lines 242–247):
  `mutex.acquire()`; `bounding_box.copy()`; `confidence.copy()`;
  `type.copy()`; `mutex.release()`.

Python dicts are heap objects: the heap maps addresses to `MVal` dict
values, `.copy()` allocates a fresh address holding the current contents,
and the listener fields / the main thread's latest copies hold addresses.
The face pipeline's copy section (lines 156–167) is line-for-line the same
shape with more dicts. -/

/-- The two threads. -/
inductive Tid where
  | cb
  | mn
  deriving DecidableEq, Repr

/-- Program counter of the callback thread inside `results_updated`. -/
inductive CbPhase where
  | idle
  | entered (objs : List (Nat × ObjListener.ObjData))
  | writing (objs : List (Nat × ObjListener.ObjData))
  deriving DecidableEq, Repr

/-- Program counter of the main thread inside its copy section. -/
inductive MainPhase where
  | idle
  | c0
  | c1
  | c2
  | copied
  deriving DecidableEq, Repr

/-- Global state: the dict heap, the allocation counter, the mutex owner,
the listener's three dict addresses, both program counters, and the
addresses of the main thread's latest copies. -/
structure CState where
  heap : Nat → AffSample.MVal
  next : Nat
  lock : Option Tid
  confA : Nat
  bbA : Nat
  tyA : Nat
  cbPhase : CbPhase
  mainPhase : MainPhase
  mainBB : Option Nat
  mainConf : Option Nat
  mainTy : Option Nat

/-- Heap update. -/
def hupd (h : Nat → AffSample.MVal) (a : Nat) (v : AffSample.MVal) :
    Nat → AffSample.MVal :=
  fun x => if x = a then v else h x

def updListD (m : AffSample.MVal) (oid : Nat) (coords : List ℚ) : AffSample.MVal :=
  match m with
  | .listD d => .listD (ObjListener.ndset d oid coords)
  | x => x

def updNumD (m : AffSample.MVal) (oid : Nat) (v : ℚ) : AffSample.MVal :=
  match m with
  | .numD d => .numD (ObjListener.ndset d oid v)
  | x => x

def updStrD (m : AffSample.MVal) (oid : Nat) (v : String) : AffSample.MVal :=
  match m with
  | .strD d => .strD (ObjListener.ndset d oid v)
  | x => x

/-- The heap effect of one iteration of the per-object loop (lines 41–48):
`bounding_box[oid] = [...]`, `type[oid] = obj.type`,
`confidence[oid] = obj.confidence`. -/
def cbWriteHeap (s : CState) (o : Nat × ObjListener.ObjData) : Nat → AffSample.MVal :=
  let h1 := hupd s.heap s.bbA
    (updListD (s.heap s.bbA) o.1 [o.2.tlx, o.2.tly, o.2.brx, o.2.bry])
  let h2 := hupd h1 s.tyA (updStrD (h1 s.tyA) o.1 o.2.type)
  hupd h2 s.confA (updNumD (h2 s.confA) o.1 o.2.confidence)

/-- The heap effect of `clear_all_dictionaries` (lines 56–65): the old
dicts are `clear()`ed in place and the fields rebound to three freshly
allocated empty dicts. -/
def cbClearHeap (s : CState) : Nat → AffSample.MVal :=
  hupd (hupd (hupd (hupd (hupd (hupd s.heap
    s.confA (.numD [])) s.bbA (.listD [])) s.tyA (.strD []))
    s.next (.numD [])) (s.next + 1) (.listD [])) (s.next + 2) (.strD [])

/-- One atomic step of either thread.  Lock acquisition blocks unless the
mutex is free; every other step is enabled purely by the thread's own
program counter, exactly as in the Python code. -/
inductive CStep : Tid → CState → CState → Prop where
  | cbAcquire (s : CState) (objs : List (Nat × ObjListener.ObjData)) :
      s.lock = none → s.cbPhase = .idle →
      CStep .cb s { s with lock := some .cb, cbPhase := .entered objs }
  | cbClear (s : CState) (objs : List (Nat × ObjListener.ObjData)) :
      s.cbPhase = .entered objs →
      CStep .cb s
        { s with heap := cbClearHeap s,
                 confA := s.next, bbA := s.next + 1, tyA := s.next + 2,
                 next := s.next + 3, cbPhase := .writing objs }
  | cbWrite (s : CState) (o : Nat × ObjListener.ObjData)
      (objs : List (Nat × ObjListener.ObjData)) :
      s.cbPhase = .writing (o :: objs) →
      CStep .cb s { s with heap := cbWriteHeap s o, cbPhase := .writing objs }
  | cbRelease (s : CState) :
      s.cbPhase = .writing [] →
      CStep .cb s { s with lock := none, cbPhase := .idle }
  | mAcquire (s : CState) :
      s.lock = none → s.mainPhase = .idle →
      CStep .mn s { s with lock := some .mn, mainPhase := .c0 }
  | mCopyBB (s : CState) :
      s.mainPhase = .c0 →
      CStep .mn s
        { s with heap := hupd s.heap s.next (s.heap s.bbA),
                 mainBB := some s.next, next := s.next + 1, mainPhase := .c1 }
  | mCopyConf (s : CState) :
      s.mainPhase = .c1 →
      CStep .mn s
        { s with heap := hupd s.heap s.next (s.heap s.confA),
                 mainConf := some s.next, next := s.next + 1, mainPhase := .c2 }
  | mCopyTy (s : CState) :
      s.mainPhase = .c2 →
      CStep .mn s
        { s with heap := hupd s.heap s.next (s.heap s.tyA),
                 mainTy := some s.next, next := s.next + 1, mainPhase := .copied }
  | mRelease (s : CState) :
      s.mainPhase = .copied →
      CStep .mn s { s with lock := none, mainPhase := .idle }

/-- The state after `ObjectListener.__init__` (lines 12–23): three empty
dicts on the heap, mutex free, both threads outside their critical
sections, no copies taken yet. -/
def initCState : CState :=
  { heap := fun a =>
      if a = 0 then .numD [] else if a = 1 then .listD []
      else if a = 2 then .strD [] else .listD [],
    next := 3, lock := none, confA := 0, bbA := 1, tyA := 2,
    cbPhase := .idle, mainPhase := .idle,
    mainBB := none, mainConf := none, mainTy := none }

/-- Reachability under arbitrary interleaving. -/
inductive CReach : CState → Prop where
  | init : CReach initCState
  | step (t : Tid) (s s' : CState) : CReach s → CStep t s s' → CReach s'

/-- The inductive invariant: listener addresses and copy addresses are
allocated (`< next`), copies never alias a listener dict field, and a
thread inside its critical section holds the mutex. -/
def CInv (s : CState) : Prop :=
  s.bbA < s.next ∧ s.confA < s.next ∧ s.tyA < s.next ∧
  (∀ a, s.mainBB = some a → a < s.next ∧ a ≠ s.bbA ∧ a ≠ s.confA ∧ a ≠ s.tyA) ∧
  (∀ a, s.mainConf = some a → a < s.next ∧ a ≠ s.bbA ∧ a ≠ s.confA ∧ a ≠ s.tyA) ∧
  (∀ a, s.mainTy = some a → a < s.next ∧ a ≠ s.bbA ∧ a ≠ s.confA ∧ a ≠ s.tyA) ∧
  (s.cbPhase ≠ .idle → s.lock = some .cb) ∧
  (s.mainPhase ≠ .idle → s.lock = some .mn)

lemma CInv_init : CInv initCState := by
  refine ⟨by decide, by decide, by decide, ?_, ?_, ?_, ?_, ?_⟩ <;>
    simp [initCState]

lemma CInv_step {t : Tid} {s s' : CState} (hinv : CInv s) (hs : CStep t s s') :
    CInv s' := by
  obtain ⟨hbb, hconf, hty, hmb, hmc, hmt, hcl, hml⟩ := hinv
  cases hs with
  | cbAcquire s objs hl hp =>
    exact ⟨hbb, hconf, hty, hmb, hmc, hmt, fun _ => rfl, fun hm => by
      rw [hml hm] at hl; cases hl⟩
  | cbClear s objs hp =>
    have hlock := hcl (by rw [hp]; intro h; cases h)
    refine ⟨by dsimp only; omega, by dsimp only; omega, by dsimp only; omega, ?_, ?_, ?_, fun _ => hlock, ?_⟩
    · intro a ha
      obtain ⟨h1, _, _, _⟩ := hmb a ha
      exact ⟨by dsimp only; omega, by dsimp only; omega, by dsimp only; omega, by dsimp only; omega⟩
    · intro a ha
      obtain ⟨h1, _, _, _⟩ := hmc a ha
      exact ⟨by dsimp only; omega, by dsimp only; omega, by dsimp only; omega, by dsimp only; omega⟩
    · intro a ha
      obtain ⟨h1, _, _, _⟩ := hmt a ha
      exact ⟨by dsimp only; omega, by dsimp only; omega, by dsimp only; omega, by dsimp only; omega⟩
    · intro hm
      have := hml hm
      rw [this] at hlock
      cases hlock
  | cbWrite s o objs hp =>
    have hlock := hcl (by rw [hp]; intro h; cases h)
    exact ⟨hbb, hconf, hty, hmb, hmc, hmt, fun _ => hlock, fun hm => by
      have := hml hm; rw [this] at hlock; cases hlock⟩
  | cbRelease s hp =>
    have hlock := hcl (by rw [hp]; intro h; cases h)
    exact ⟨hbb, hconf, hty, hmb, hmc, hmt, fun h => absurd rfl h, fun hm => by
      have := hml hm; rw [this] at hlock; cases hlock⟩
  | mAcquire s hl hp =>
    exact ⟨hbb, hconf, hty, hmb, hmc, hmt,
      (fun hc => by rw [hcl hc] at hl; cases hl), fun _ => rfl⟩
  | mCopyBB s hp =>
    have hlock := hml (by rw [hp]; intro h; cases h)
    refine ⟨by dsimp only; omega, by dsimp only; omega, by dsimp only; omega, ?_, ?_, ?_, ?_, fun _ => hlock⟩
    · intro a ha
      simp only [Option.some_inj] at ha
      subst ha
      exact ⟨by dsimp only; omega, by dsimp only; omega, by dsimp only; omega, by dsimp only; omega⟩
    · intro a ha
      obtain ⟨h1, h2, h3, h4⟩ := hmc a ha
      exact ⟨by dsimp only; omega, h2, h3, h4⟩
    · intro a ha
      obtain ⟨h1, h2, h3, h4⟩ := hmt a ha
      exact ⟨by dsimp only; omega, h2, h3, h4⟩
    · intro hc
      have := hcl hc
      rw [this] at hlock
      cases hlock
  | mCopyConf s hp =>
    have hlock := hml (by rw [hp]; intro h; cases h)
    refine ⟨by dsimp only; omega, by dsimp only; omega, by dsimp only; omega, ?_, ?_, ?_, ?_, fun _ => hlock⟩
    · intro a ha
      obtain ⟨h1, h2, h3, h4⟩ := hmb a ha
      exact ⟨by dsimp only; omega, h2, h3, h4⟩
    · intro a ha
      simp only [Option.some_inj] at ha
      subst ha
      exact ⟨by dsimp only; omega, by dsimp only; omega, by dsimp only; omega, by dsimp only; omega⟩
    · intro a ha
      obtain ⟨h1, h2, h3, h4⟩ := hmt a ha
      exact ⟨by dsimp only; omega, h2, h3, h4⟩
    · intro hc
      have := hcl hc
      rw [this] at hlock
      cases hlock
  | mCopyTy s hp =>
    have hlock := hml (by rw [hp]; intro h; cases h)
    refine ⟨by dsimp only; omega, by dsimp only; omega, by dsimp only; omega, ?_, ?_, ?_, ?_, fun _ => hlock⟩
    · intro a ha
      obtain ⟨h1, h2, h3, h4⟩ := hmb a ha
      exact ⟨by dsimp only; omega, h2, h3, h4⟩
    · intro a ha
      obtain ⟨h1, h2, h3, h4⟩ := hmc a ha
      exact ⟨by dsimp only; omega, h2, h3, h4⟩
    · intro a ha
      simp only [Option.some_inj] at ha
      subst ha
      exact ⟨by dsimp only; omega, by dsimp only; omega, by dsimp only; omega, by dsimp only; omega⟩
    · intro hc
      have := hcl hc
      rw [this] at hlock
      cases hlock
  | mRelease s hp =>
    have hlock := hml (by rw [hp]; intro h; cases h)
    exact ⟨hbb, hconf, hty, hmb, hmc, hmt,
      (fun hc => by have := hcl hc; rw [this] at hlock; cases hlock),
      fun h => absurd rfl h⟩

lemma CReach_inv {s : CState} (hr : CReach s) : CInv s := by
  induction hr with
  | init => exact CInv_init
  | step t s s' _ hs ih => exact CInv_step ih hs

end Conc

namespace Conc

lemma hupd_ne (h : Nat → AffSample.MVal) (a b : Nat) (v : AffSample.MVal)
    (hab : a ≠ b) : hupd h b v a = h a := by
  simp [hupd, hab]

lemma cbClearHeap_untouched (s : CState) (a : Nat) (hn : a < s.next)
    (h1 : a ≠ s.bbA) (h2 : a ≠ s.confA) (h3 : a ≠ s.tyA) :
    cbClearHeap s a = s.heap a := by
  rw [cbClearHeap, hupd_ne _ _ _ _ (by omega), hupd_ne _ _ _ _ (by omega),
    hupd_ne _ _ _ _ (by omega), hupd_ne _ _ _ _ h3, hupd_ne _ _ _ _ h1,
    hupd_ne _ _ _ _ h2]

lemma cbWriteHeap_untouched (s : CState) (o : Nat × ObjListener.ObjData) (a : Nat)
    (h1 : a ≠ s.bbA) (h2 : a ≠ s.confA) (h3 : a ≠ s.tyA) :
    cbWriteHeap s o a = s.heap a := by
  simp only [cbWriteHeap]
  rw [hupd_ne _ _ _ _ h2, hupd_ne _ _ _ _ h3, hupd_ne _ _ _ _ h1]

/-- C2: per-frame result dicts are handed over under the listener's mutex.
In every reachable interleaving: (1) the callback's critical section
(`results_updated`) and the main thread's copy section are mutually
exclusive; (2) every callback step that changes the dict heap runs with the
callback holding the mutex; (3) every main-thread step that takes a copy
runs with the main thread holding the mutex; (4) no callback step ever
changes the main thread's copied dicts — neither which copies it holds nor
the heap contents at the copied addresses — so the metrics used to draw and
log a frame are not altered by any later `results_updated` callback. -/
theorem mutex_guarded_result_handoff :
    (∀ s : CState, CReach s → ¬(s.cbPhase ≠ .idle ∧ s.mainPhase ≠ .idle)) ∧
    (∀ s s' : CState, CReach s → CStep .cb s s' → s'.heap ≠ s.heap →
      s.lock = some .cb) ∧
    (∀ s s' : CState, CReach s → CStep .mn s s' →
      (s'.mainBB ≠ s.mainBB ∨ s'.mainConf ≠ s.mainConf ∨ s'.mainTy ≠ s.mainTy) →
      s.lock = some .mn) ∧
    (∀ s s' : CState, CReach s → CStep .cb s s' →
      s'.mainBB = s.mainBB ∧ s'.mainConf = s.mainConf ∧ s'.mainTy = s.mainTy ∧
      (∀ a, s.mainBB = some a → s'.heap a = s.heap a) ∧
      (∀ a, s.mainConf = some a → s'.heap a = s.heap a) ∧
      (∀ a, s.mainTy = some a → s'.heap a = s.heap a)) := by
  refine ⟨?_, ?_, ?_, ?_⟩
  · intro s hr hcm
    obtain ⟨_, _, _, _, _, _, hcl, hml⟩ := CReach_inv hr
    have h1 := hcl hcm.1
    have h2 := hml hcm.2
    rw [h1] at h2
    cases h2
  · intro s s' hr hs hne
    obtain ⟨_, _, _, _, _, _, hcl, _⟩ := CReach_inv hr
    cases hs with
    | cbAcquire s objs hl hp => exact absurd rfl hne
    | cbClear s objs hp => exact hcl (by rw [hp]; intro h; cases h)
    | cbWrite s o objs hp => exact hcl (by rw [hp]; intro h; cases h)
    | cbRelease s hp => exact absurd rfl hne
  · intro s s' hr hs hne
    obtain ⟨_, _, _, _, _, _, _, hml⟩ := CReach_inv hr
    cases hs with
    | mAcquire s hl hp =>
      rcases hne with h | h | h <;> exact absurd rfl h
    | mCopyBB s hp => exact hml (by rw [hp]; intro h; cases h)
    | mCopyConf s hp => exact hml (by rw [hp]; intro h; cases h)
    | mCopyTy s hp => exact hml (by rw [hp]; intro h; cases h)
    | mRelease s hp =>
      rcases hne with h | h | h <;> exact absurd rfl h
  · intro s s' hr hs
    obtain ⟨_, _, _, hmb, hmc, hmt, _, _⟩ := CReach_inv hr
    cases hs with
    | cbAcquire s objs hl hp =>
      exact ⟨rfl, rfl, rfl, fun a _ => rfl, fun a _ => rfl, fun a _ => rfl⟩
    | cbClear s objs hp =>
      refine ⟨rfl, rfl, rfl, ?_, ?_, ?_⟩
      · intro a ha
        obtain ⟨hn, h1, h2, h3⟩ := hmb a ha
        exact cbClearHeap_untouched s a hn h1 h2 h3
      · intro a ha
        obtain ⟨hn, h1, h2, h3⟩ := hmc a ha
        exact cbClearHeap_untouched s a hn h1 h2 h3
      · intro a ha
        obtain ⟨hn, h1, h2, h3⟩ := hmt a ha
        exact cbClearHeap_untouched s a hn h1 h2 h3
    | cbWrite s o objs hp =>
      refine ⟨rfl, rfl, rfl, ?_, ?_, ?_⟩
      · intro a ha
        obtain ⟨hn, h1, h2, h3⟩ := hmb a ha
        exact cbWriteHeap_untouched s o a h1 h2 h3
      · intro a ha
        obtain ⟨hn, h1, h2, h3⟩ := hmc a ha
        exact cbWriteHeap_untouched s o a h1 h2 h3
      · intro a ha
        obtain ⟨hn, h1, h2, h3⟩ := hmt a ha
        exact cbWriteHeap_untouched s o a h1 h2 h3
    | cbRelease s hp =>
      exact ⟨rfl, rfl, rfl, fun a _ => rfl, fun a _ => rfl, fun a _ => rfl⟩

/-- Concrete instance of C2: from the initial state, the callback acquiring
the mutex (with an empty `objects` batch) leaves the main thread's copied
dicts exactly as they were. -/
theorem mutex_guarded_result_handoff_witness :
    ({ initCState with lock := some Tid.cb, cbPhase := CbPhase.entered [] }
      : CState).mainBB = initCState.mainBB :=
  (mutex_guarded_result_handoff.2.2.2 initCState _ CReach.init
    (CStep.cbAcquire initCState [] rfl rfl)).1

end Conc
